import Mathlib

/-!
Verification of the ledger-computation engine of the tilapia-suite
accounting application (src/app.py) against its specification.

Modelling conventions:
* money is represented by `ℚ` (the spec mandates exact decimal arithmetic;
  every comparison of the source, including the `0.01` tolerance tests,
  is translated literally);
* calendar dates are represented by `ℤ`, ordered as ISO date strings are;
  "the day before `d`" is `d - 1`;
* the persistent store (Supabase tables) is passed explicitly: the table of
  accounts and the table of journal lines are `List` values, queries become
  `List.filter`, inserts become list append.
-/

namespace Tilapia

/-- Python's `str.startswith`: character-level prefix test. -/
def strStartsWith (s p : String) : Bool := p.data.isPrefixOf s.data

/-- Python's `abs()` on exact decimal values. -/
def ratAbs (v : ℚ) : ℚ := if v < 0 then -v else v

/-- The absolute monetary tolerance `0.01` used by every comparison. -/
def tolerance : ℚ := 1/100

/-- A row of the `accounts` table (the Account Registry). -/
structure Account where
  account_code : String
  account_name : String
  account_type : String
  normal_balance : String
  beginning_balance : ℚ
  deriving Repr, DecidableEq

/-- A row of the `journal_entries` table. -/
structure JournalEntry where
  id : Nat
  date : ℤ
  account_code : String
  account_name : String
  description : String
  debit : ℚ
  credit : ℚ
  journal_type : String
  ref_code : String
  transaction_id : String
  deriving Repr, DecidableEq

/-- `next((acc for acc in get_all_accounts() if acc['account_code'] == code), None)`:
first registry row with the given code. -/
def lookupAccount (accounts : List Account) (code : String) : Option Account :=
  accounts.find? (fun a => a.account_code == code)

/-- Python dict comprehension `{acc['account_code']: acc for acc in accounts}`
read back at `code`: the last registry row with that code wins. -/
def lastAccount (accounts : List Account) (code : String) : Option Account :=
  accounts.reverse.find? (fun a => a.account_code == code)

/-- The `.lte('date', end_date)` query filter (absent filter accepts all rows). -/
def dateOk (end_date : Option ℤ) (e : JournalEntry) : Bool :=
  match end_date with
  | none => true
  | some d => e.date ≤ d

/-- The `.in_('journal_type', journal_types)` query filter. -/
def typeOk (journal_types : Option (List String)) (e : JournalEntry) : Bool :=
  match journal_types with
  | none => true
  | some ts => ts.contains e.journal_type

/-- `get_ledger_balance(account_code, end_date, journal_types)`:
beginning balance plus the debit/credit fold of the filtered journal lines,
signed by the account's normal balance; `0` when the code is not registered. -/
def get_ledger_balance (accounts : List Account) (entries : List JournalEntry)
    (account_code : String) (end_date : Option ℤ) (journal_types : Option (List String)) : ℚ :=
  match lookupAccount accounts account_code with
  | none => 0
  | some account =>
    let es := entries.filter
      (fun e => e.account_code == account_code && dateOk end_date e && typeOk journal_types e)
    let total_debit := (es.map (·.debit)).sum
    let total_credit := (es.map (·.credit)).sum
    account.beginning_balance +
      (if account.normal_balance == "debit" then total_debit - total_credit
       else total_credit - total_debit)

/-- Helper for `dedupKeys`: drops keys already seen. -/
def dedupKeysAux (seen : List String) : List String → List String
  | [] => []
  | c :: rest =>
    if c ∈ seen then dedupKeysAux seen rest else c :: dedupKeysAux (c :: seen) rest

/-- First occurrences of the keys of a Python dict built by repeated insertion. -/
def dedupKeys (l : List String) : List String := dedupKeysAux [] l

/-- Signed effect of one journal line on the balance of its account
(`+= debit - credit` for debit-normal accounts, `+= credit - debit` otherwise). -/
def entryDelta (a : Account) (e : JournalEntry) : ℚ :=
  if a.normal_balance == "debit" then e.debit - e.credit else e.credit - e.debit

/-- The per-entry loop of `get_final_balances`: each journal line whose code is
registered adds its signed delta to that code's running balance. -/
def applyEntries (accounts : List Account) (init : String → ℚ)
    (l : List JournalEntry) : String → ℚ :=
  l.foldl
    (fun bal e =>
      match lastAccount accounts e.account_code with
      | none => bal
      | some a => fun c => if c == e.account_code then bal c + entryDelta a e else bal c)
    init

/-- One output row of `get_final_balances`. -/
structure BalanceRow where
  account_code : String
  account_name : String
  normal_balance : String
  amount : ℚ
  deriving Repr, DecidableEq

/-- The materiality test of `get_final_balances`:
`abs(final_balance) > 0.01 or code.startswith(('3-','4-','5-','6-'))`. -/
def keepRow (code : String) (v : ℚ) : Bool :=
  decide (tolerance < ratAbs v) || strStartsWith code "3-" || strStartsWith code "4-" ||
    strStartsWith code "5-" || strStartsWith code "6-"

/-- `get_final_balances(end_date, journal_types)`: the batched aggregator.
It fetches the full filtered journal-line set once, folds it into a balance per
registered code, and returns the rows that pass the materiality test. -/
def get_final_balances (accounts : List Account) (entries : List JournalEntry)
    (end_date : Option ℤ) (journal_types : Option (List String)) : List BalanceRow :=
  let filtered := entries.filter (fun e => dateOk end_date e && typeOk journal_types e)
  let init : String → ℚ := fun c =>
    match lastAccount accounts c with
    | some a => a.beginning_balance
    | none => 0
  let bal := applyEntries accounts init filtered
  (dedupKeys (accounts.map (·.account_code))).filterMap (fun code =>
    match lastAccount accounts code with
    | none => none
    | some a =>
      let v := bal code
      if keepRow code v then
        some ⟨code, a.account_name, a.normal_balance, v⟩
      else none)

/-- The running balance each code reaches inside `get_final_balances` (the
`balances[code]` dict after the processing loop). -/
def finalBalanceFun (accounts : List Account) (entries : List JournalEntry)
    (end_date : Option ℤ) (journal_types : Option (List String)) : String → ℚ :=
  applyEntries accounts
    (fun c =>
      match lastAccount accounts c with
      | some a => a.beginning_balance
      | none => 0)
    (entries.filter (fun e => dateOk end_date e && typeOk journal_types e))

/-- `generate_income_statement(final_balances)`. -/
structure IncomeStatement where
  revenue : ℚ
  expenses : ℚ
  net_income : ℚ
  revenue_details : List BalanceRow
  expense_details : List BalanceRow
  deriving Repr, DecidableEq

/-- Partition the final balances by code class 4 (revenue) against 5/6
(expenses); net income is total revenue minus total expenses. -/
def generate_income_statement (final_balances : List BalanceRow) : IncomeStatement :=
  let revenue_details := final_balances.filter
    (fun acc => strStartsWith acc.account_code "4-")
  let expense_details := final_balances.filter
    (fun acc => strStartsWith acc.account_code "5-" || strStartsWith acc.account_code "6-")
  let total_revenue := (revenue_details.map (·.amount)).sum
  let total_expenses := (expense_details.map (·.amount)).sum
  ⟨total_revenue, total_expenses, total_revenue - total_expenses,
   revenue_details, expense_details⟩

/-- `generate_balance_sheet(final_balances, net_income)`. -/
structure BalanceSheet where
  assets : ℚ
  liabilities : ℚ
  equity : ℚ
  asset_details : List BalanceRow
  liability_details : List BalanceRow
  initial_equity_val : ℚ
  drawings_val : ℚ
  deriving Repr, DecidableEq

/-- The balance sheet: class 1 is assets (contra-asset rows, i.e. credit-normal
asset rows, are subtracted), class 2 liabilities, class 3 without the drawings
account `3-1100` the initial equity, `3-1100` alone the drawings;
`final_equity = initial_equity + net_income - drawings`. -/
def generate_balance_sheet (final_balances : List BalanceRow) (net_income : ℚ) :
    BalanceSheet :=
  let asset_details := final_balances.filter
    (fun acc => strStartsWith acc.account_code "1-")
  let liability_details := final_balances.filter
    (fun acc => strStartsWith acc.account_code "2-")
  let initial_equity_items := final_balances.filter
    (fun acc => strStartsWith acc.account_code "3-" && ¬ (acc.account_code == "3-1100"))
  let drawing_items := final_balances.filter (fun acc => acc.account_code == "3-1100")
  let total_assets := asset_details.foldl
    (fun t item =>
      if item.normal_balance == "debit" then t + item.amount
      else if item.normal_balance == "credit" then t - item.amount
      else t) 0
  let total_liabilities := (liability_details.map (·.amount)).sum
  let initial_equity_val := (initial_equity_items.map (·.amount)).sum
  let drawings_val := (drawing_items.map (·.amount)).sum
  let final_equity := initial_equity_val + net_income - drawings_val
  ⟨total_assets, total_liabilities, final_equity, asset_details, liability_details,
   initial_equity_val, drawings_val⟩

/-- A small concrete registry used by witnesses, mirroring
`init_default_accounts`. -/
def demoAccounts : List Account :=
  [⟨"1-1000", "Kas", "aset", "debit", 0⟩,
   ⟨"1-1200", "Persediaan Ikan Mujair", "aset", "debit", 0⟩,
   ⟨"2-1000", "Utang Usaha", "kewajiban", "credit", 0⟩,
   ⟨"3-1000", "Modal", "ekuitas", "credit", 0⟩,
   ⟨"3-1100", "Prive", "ekuitas", "debit", 0⟩,
   ⟨"4-1000", "Penjualan", "pendapatan", "credit", 0⟩,
   ⟨"5-1000", "Harga Pokok Penjualan", "beban", "debit", 0⟩]

/-- Two balanced demo journal lines for one sale. -/
def demoSaleEntries : List JournalEntry :=
  [⟨1, 5, "1-1000", "Kas", "penjualan", 100, 0, "GJ", "GB001", ""⟩,
   ⟨2, 5, "4-1000", "Penjualan", "penjualan", 0, 100, "GJ", "GB001", ""⟩]

/-! ### Per-row contributions of the balance-sheet and income-statement sums -/

/-- Contribution of one balance row to `total_assets` (contra-asset rows are
subtracted). -/
def assetVal (row : BalanceRow) : ℚ :=
  if strStartsWith row.account_code "1-" then
    (if row.normal_balance == "debit" then row.amount
     else if row.normal_balance == "credit" then -row.amount else 0)
  else 0

/-- Contribution of one balance row to `total_liabilities`. -/
def liabilityVal (row : BalanceRow) : ℚ :=
  if strStartsWith row.account_code "2-" then row.amount else 0

/-- Contribution of one balance row to `initial_equity_val`. -/
def initialEquityVal (row : BalanceRow) : ℚ :=
  if strStartsWith row.account_code "3-" && ¬ (row.account_code == "3-1100") then
    row.amount
  else 0

/-- Contribution of one balance row to `drawings_val`. -/
def drawingsVal (row : BalanceRow) : ℚ :=
  if row.account_code == "3-1100" then row.amount else 0

/-- Contribution of one balance row to `total_revenue`. -/
def revenueVal (row : BalanceRow) : ℚ :=
  if strStartsWith row.account_code "4-" then row.amount else 0

/-- Contribution of one balance row to `total_expenses`. -/
def expenseVal (row : BalanceRow) : ℚ :=
  if strStartsWith row.account_code "5-" || strStartsWith row.account_code "6-" then
    row.amount
  else 0

/-- The debit-positive reading of an account's signed balance. -/
def signedBalance (a : Account) (v : ℚ) : ℚ :=
  if a.normal_balance == "debit" then v else -v

/-- Four journal lines in two reference codes, each balanced only within the
0.01 tolerance (debit 1.009 against credit 1). -/
def c2entries : List JournalEntry :=
  [⟨1, 5, "1-1000", "Kas", "x", 1009/1000, 0, "GJ", "R1", ""⟩,
   ⟨2, 5, "4-1000", "Penjualan", "x", 0, 1, "GJ", "R1", ""⟩,
   ⟨3, 5, "1-1000", "Kas", "x", 1009/1000, 0, "GJ", "R2", ""⟩,
   ⟨4, 5, "4-1000", "Penjualan", "x", 0, 1, "GJ", "R2", ""⟩]

/-- The balance rows the aggregator produces for the two-reference scenario. -/
def c2balances : List BalanceRow :=
  get_final_balances demoAccounts c2entries (some 10) (some ["GJ", "AJ"])

/-- The balance sheet of the two-reference scenario. -/
def c2sheet : BalanceSheet :=
  generate_balance_sheet c2balances (generate_income_statement c2balances).net_income

/-! ### Ten-column worksheet (`akuntan_worksheet`) -/

/-- `{...}.get(code, 0)` over a dict keyed by account code (last writer wins,
as in a Python dict comprehension). -/
def balanceMapGet (rows : List BalanceRow) (code : String) : ℚ :=
  match rows.reverse.find? (fun r => r.account_code == code) with
  | some r => r.amount
  | none => 0

/-- `adj_debit_map.get(code, 0)`: summed debit of the adjustment-class lines of
one account up to the end date. -/
def adj_debit_map (entries : List JournalEntry) (end_date : ℤ) (code : String) : ℚ :=
  (((entries.filter (fun e => e.journal_type == "AJ" && dateOk (some end_date) e)).filter
    (fun e => e.account_code == code)).map (·.debit)).sum

/-- `adj_kredit_map.get(code, 0)`. -/
def adj_kredit_map (entries : List JournalEntry) (end_date : ℤ) (code : String) : ℚ :=
  (((entries.filter (fun e => e.journal_type == "AJ" && dateOk (some end_date) e)).filter
    (fun e => e.account_code == code)).map (·.credit)).sum

/-- Splitting a signed balance into a (debit, credit) column pair by the
account's normal balance. -/
def splitByNormal (normal_balance : String) (balance : ℚ) : ℚ × ℚ :=
  if normal_balance == "debit" then
    (if 0 < balance then balance else 0, if balance < 0 then ratAbs balance else 0)
  else
    (if balance < 0 then ratAbs balance else 0, if 0 < balance then balance else 0)

/-- One line of the ten-column worksheet. -/
structure WorksheetRow where
  code : String
  name : String
  normal_balance : String
  ns_debet : ℚ
  ns_kredit : ℚ
  adj_debet : ℚ
  adj_kredit : ℚ
  nsa_debet : ℚ
  nsa_kredit : ℚ
  lr_debet : ℚ
  lr_kredit : ℚ
  neraca_debet : ℚ
  neraca_kredit : ℚ
  deriving Repr, DecidableEq

/-- The per-account body of the worksheet loop: the three column pairs, the
income-statement/balance-sheet routing by code class, and the inclusion test. -/
def worksheetRowOf (accounts : List Account) (entries : List JournalEntry)
    (end_date : ℤ) (account : Account) : Option WorksheetRow :=
  let code := account.account_code
  let balance_ns := balanceMapGet
    (get_final_balances accounts entries (some end_date) (some ["GJ"])) code
  let ns := splitByNormal account.normal_balance balance_ns
  let adj_debet := adj_debit_map entries end_date code
  let adj_kredit := adj_kredit_map entries end_date code
  let balance_nsa := balanceMapGet
    (get_final_balances accounts entries (some end_date) (some ["GJ", "AJ"])) code
  let nsa := splitByNormal account.normal_balance balance_nsa
  let isIS := strStartsWith code "4-" || strStartsWith code "5-" || strStartsWith code "6-"
  if decide (tolerance < ratAbs balance_nsa) || decide (0 < adj_debet) ||
      decide (0 < adj_kredit) || decide (tolerance < ratAbs balance_ns) then
    some ⟨code, account.account_name, account.normal_balance,
      ns.1, ns.2, adj_debet, adj_kredit, nsa.1, nsa.2,
      (if isIS then nsa.1 else 0), (if isIS then nsa.2 else 0),
      (if isIS then 0 else nsa.1), (if isIS then 0 else nsa.2)⟩
  else none

/-- The worksheet body: one row per registered account that passes the
inclusion test. -/
def akuntan_worksheet_rows (accounts : List Account) (entries : List JournalEntry)
    (end_date : ℤ) : List WorksheetRow :=
  accounts.filterMap (worksheetRowOf accounts entries end_date)

/-- The four cells of the `TOTAL AKHIR` (totals after balancing) row. -/
structure WorksheetFinal where
  lr_debet : ℚ
  lr_kredit : ℚ
  neraca_debet : ℚ
  neraca_kredit : ℚ
  deriving Repr, DecidableEq

/-- The totals-after-balancing row: net income (income-statement credit minus
debit) is added to the income-statement debit column and to the balance-sheet
credit column when it is a profit, and with opposite placement (as a positive
magnitude) when it is a loss. -/
def akuntan_worksheet_final (accounts : List Account) (entries : List JournalEntry)
    (end_date : ℤ) : WorksheetFinal :=
  let rows := akuntan_worksheet_rows accounts entries end_date
  let total_lr_debet := (rows.map (·.lr_debet)).sum
  let total_lr_kredit := (rows.map (·.lr_kredit)).sum
  let total_neraca_debet := (rows.map (·.neraca_debet)).sum
  let total_neraca_kredit := (rows.map (·.neraca_kredit)).sum
  let net_income := total_lr_kredit - total_lr_debet
  ⟨total_lr_debet + (if 0 ≤ net_income then net_income else 0),
   total_lr_kredit + (if net_income < 0 then ratAbs net_income else 0),
   total_neraca_debet + (if net_income < 0 then ratAbs net_income else 0),
   total_neraca_kredit + (if 0 ≤ net_income then net_income else 0)⟩

/-- A registry of three asset accounts and one revenue account. -/
def c6accounts : List Account :=
  [⟨"1-1001", "Kas Kecil A", "aset", "debit", 0⟩,
   ⟨"1-1002", "Kas Kecil B", "aset", "debit", 0⟩,
   ⟨"1-1003", "Kas Kecil C", "aset", "debit", 0⟩,
   ⟨"4-1000", "Penjualan", "pendapatan", "credit", 0⟩]

/-- Three exactly balanced reference codes, each moving `0.005` from revenue
into a different asset account. -/
def c6entries : List JournalEntry :=
  [⟨1, 5, "1-1001", "Kas Kecil A", "x", 5/1000, 0, "GJ", "R1", ""⟩,
   ⟨2, 5, "4-1000", "Penjualan", "x", 0, 5/1000, "GJ", "R1", ""⟩,
   ⟨3, 5, "1-1002", "Kas Kecil B", "x", 5/1000, 0, "GJ", "R2", ""⟩,
   ⟨4, 5, "4-1000", "Penjualan", "x", 0, 5/1000, "GJ", "R2", ""⟩,
   ⟨5, 5, "1-1003", "Kas Kecil C", "x", 5/1000, 0, "GJ", "R3", ""⟩,
   ⟨6, 5, "4-1000", "Penjualan", "x", 0, 5/1000, "GJ", "R3", ""⟩]

/-! ### Cash-flow statement (`generate_cash_flow_statement`) -/

/-- The designated cash account. -/
def CASH_ACCOUNT_CODE : String := "1-1000"

/-- `entry.get('transaction_id') or entry.get('ref_code') or f"unique_{id}"`
(an absent field is modelled by the empty string, which is also falsy in
Python). -/
def transKey (e : JournalEntry) : String :=
  if e.transaction_id ≠ "" then e.transaction_id
  else if e.ref_code ≠ "" then e.ref_code
  else "unique_" ++ toString e.id

/-- A cash movement is the line's debit minus its credit. -/
def movement (e : JournalEntry) : ℚ := e.debit - e.credit

/-- One aggregation dict of the classifier:
`{code: {'description': name, 'amount': total}}` as an insertion-ordered
association list. -/
def aggregate (agg : List (String × String × ℚ)) (code name : String)
    (amount_val : ℚ) : List (String × String × ℚ) :=
  if agg.any (fun p => p.1 == code) then
    agg.map (fun p => if p.1 == code then (p.1, p.2.1, p.2.2 + amount_val) else p)
  else agg ++ [(code, name, amount_val)]

/-- The six aggregation dicts. -/
structure AggState where
  op_inflows : List (String × String × ℚ)
  op_outflows : List (String × String × ℚ)
  inv_inflows : List (String × String × ℚ)
  inv_outflows : List (String × String × ℚ)
  fin_inflows : List (String × String × ℚ)
  fin_outflows : List (String × String × ℚ)
  deriving Repr, DecidableEq

/-- `accounts_map.get(code, f"Akun Tdk Dikenal ({code})")`. -/
def accountsNameMap (accounts : List Account) (code : String) : String :=
  match lastAccount accounts code with
  | some a => a.account_name
  | none => "Akun Tdk Dikenal (" ++ code ++ ")"

/-- `others.find(...)`: the first non-cash line whose movement offsets the cash
movement within the tolerance. -/
def findCounterpart (others : List JournalEntry) (cash_movement : ℚ) :
    Option JournalEntry :=
  others.find? (fun cp => ratAbs (cash_movement + movement cp) < tolerance)

/-- The prefix-based classification of one matched pair into a bucket. -/
def classifyPair (accounts : List Account) (st : AggState) (cash_movement : ℚ)
    (cp : JournalEntry) : AggState :=
  let counterpart_code := cp.account_code
  let counterpart_name := accountsNameMap accounts counterpart_code
  let amount := ratAbs cash_movement
  if strStartsWith counterpart_code "4-" then
    { st with op_inflows := aggregate st.op_inflows counterpart_code counterpart_name amount }
  else if strStartsWith counterpart_code "5-" || strStartsWith counterpart_code "6-" ||
      (strStartsWith counterpart_code "1-1" && counterpart_code ≠ CASH_ACCOUNT_CODE) ||
      strStartsWith counterpart_code "2-1" then
    { st with op_outflows := aggregate st.op_outflows counterpart_code counterpart_name amount }
  else if strStartsWith counterpart_code "1-2" then
    if 0 < cash_movement then
      { st with inv_inflows := aggregate st.inv_inflows counterpart_code counterpart_name amount }
    else
      { st with inv_outflows := aggregate st.inv_outflows counterpart_code counterpart_name amount }
  else if strStartsWith counterpart_code "2-2" || strStartsWith counterpart_code "3-" then
    if counterpart_code == "3-1100" then
      { st with fin_outflows :=
          aggregate st.fin_outflows counterpart_code "Penarikan oleh Pemilik (Prive)" amount }
    else if 0 < cash_movement then
      { st with fin_inflows := aggregate st.fin_inflows counterpart_code counterpart_name amount }
    else
      { st with fin_outflows := aggregate st.fin_outflows counterpart_code counterpart_name amount }
  else st

/-- Processing one cash line of a transaction group: skip immaterial movements,
match the first offsetting counterpart, classify the pair. -/
def processCashEntry (accounts : List Account) (others : List JournalEntry)
    (st : AggState) (cash_entry : JournalEntry) : AggState :=
  let cash_movement := movement cash_entry
  if ratAbs cash_movement < tolerance then st
  else
    match findCounterpart others cash_movement with
    | none => st
    | some cp => classifyPair accounts st cash_movement cp

/-- Processing one transaction group: split into cash and non-cash lines, skip
one-sided groups, then process each cash line in turn. -/
def processGroup (accounts : List Account) (st : AggState)
    (group : List JournalEntry) : AggState :=
  let cash_entries := group.filter (fun e => e.account_code == CASH_ACCOUNT_CODE)
  let other_entries := group.filter (fun e => ¬ (e.account_code == CASH_ACCOUNT_CODE))
  if cash_entries.isEmpty || other_entries.isEmpty then st
  else cash_entries.foldl (processCashEntry accounts other_entries) st

/-- The `.order('date')` of the period query (a stable sort by date). -/
def sortByDate (l : List JournalEntry) : List JournalEntry :=
  l.mergeSort (fun a b => a.date ≤ b.date)

/-- Total amount of one aggregation dict. -/
def amountsTotal (l : List (String × String × ℚ)) : ℚ := (l.map (fun p => p.2.2)).sum

/-- The cash-flow statement record. -/
structure CashFlowReport where
  operating_inflows : List (String × String × ℚ)
  operating_outflows : List (String × String × ℚ)
  investing_inflows : List (String × String × ℚ)
  investing_outflows : List (String × String × ℚ)
  financing_inflows : List (String × String × ℚ)
  financing_outflows : List (String × String × ℚ)
  net_operating : ℚ
  net_investing : ℚ
  net_financing : ℚ
  net_change : ℚ
  beginning_cash : ℚ
  ending_cash : ℚ
  deriving Repr, DecidableEq

/-- `generate_cash_flow_statement(start_date, end_date)`: fetch the period's
lines ordered by date, group them by transaction key, classify each group's
cash movements, and reconcile from the day-before-start cash balance. -/
def generate_cash_flow_statement (accounts : List Account)
    (entries : List JournalEntry) (start_date end_date : ℤ) : CashFlowReport :=
  let entries_in_period := sortByDate
    (entries.filter (fun e => start_date ≤ e.date && e.date ≤ end_date))
  let keys := dedupKeys (entries_in_period.map transKey)
  let st := keys.foldl
    (fun st k => processGroup accounts st
      (entries_in_period.filter (fun e => transKey e == k)))
    ⟨[], [], [], [], [], []⟩
  let net_operating := amountsTotal st.op_inflows - amountsTotal st.op_outflows
  let net_investing := amountsTotal st.inv_inflows - amountsTotal st.inv_outflows
  let net_financing := amountsTotal st.fin_inflows - amountsTotal st.fin_outflows
  let beginning_cash := get_ledger_balance accounts entries CASH_ACCOUNT_CODE
    (some (start_date - 1)) none
  let net_change := net_operating + net_investing + net_financing
  ⟨st.op_inflows, st.op_outflows, st.inv_inflows, st.inv_outflows,
   st.fin_inflows, st.fin_outflows,
   net_operating, net_investing, net_financing, net_change,
   beginning_cash, beginning_cash + net_change⟩

/-- Signed effect of one matched pair on the report's total net change
(positive for inflow buckets, negative for outflow buckets, zero when the
counterpart's prefix classifies nowhere). -/
def classifiedDelta (cp : JournalEntry) (cash_movement : ℚ) : ℚ :=
  let code := cp.account_code
  let amount := ratAbs cash_movement
  if strStartsWith code "4-" then amount
  else if strStartsWith code "5-" || strStartsWith code "6-" ||
      (strStartsWith code "1-1" && code ≠ CASH_ACCOUNT_CODE) ||
      strStartsWith code "2-1" then -amount
  else if strStartsWith code "1-2" then
    (if 0 < cash_movement then amount else -amount)
  else if strStartsWith code "2-2" || strStartsWith code "3-" then
    (if code == "3-1100" then -amount
     else if 0 < cash_movement then amount else -amount)
  else 0

/-- Signed effect of one cash line on the report's total net change. -/
def cashContribution (others : List JournalEntry) (e : JournalEntry) : ℚ :=
  let cash_movement := movement e
  if ratAbs cash_movement < tolerance then 0
  else
    match findCounterpart others cash_movement with
    | none => 0
    | some cp => classifiedDelta cp cash_movement

/-- Signed effect of one transaction group on the report's total net change. -/
def groupContribution (group : List JournalEntry) : ℚ :=
  let cash_entries := group.filter (fun e => e.account_code == CASH_ACCOUNT_CODE)
  let other_entries := group.filter (fun e => ¬ (e.account_code == CASH_ACCOUNT_CODE))
  if cash_entries.isEmpty || other_entries.isEmpty then 0
  else (cash_entries.map (cashContribution other_entries)).sum

/-- Total net change of an aggregation state. -/
def netTotal (st : AggState) : ℚ :=
  (amountsTotal st.op_inflows - amountsTotal st.op_outflows) +
  (amountsTotal st.inv_inflows - amountsTotal st.inv_outflows) +
  (amountsTotal st.fin_inflows - amountsTotal st.fin_outflows)

/-- Key-uniqueness of the six aggregation dicts. -/
def StateInv (st : AggState) : Prop :=
  (st.op_inflows.map (·.1)).Nodup ∧ (st.op_outflows.map (·.1)).Nodup ∧
  (st.inv_inflows.map (·.1)).Nodup ∧ (st.inv_outflows.map (·.1)).Nodup ∧
  (st.fin_inflows.map (·.1)).Nodup ∧ (st.fin_outflows.map (·.1)).Nodup

/-! ### Journal posting (`akuntan_journal_gj`, `akuntan_adjustment_journal`) -/

/-- Outcome of a posting request: the flash category plus which validation
message was raised (`invalid` covers the missing-account / non-positive-amount
flashes of the general journal route, `unbalanced` the balance flash). -/
inductive PostOutcome where
  | success
  | unbalanced
  | invalid
  deriving Repr, DecidableEq

/-- The row `create_journal_entry` inserts (the database id is irrelevant to the
claims and modelled as `0`). -/
def mkJournalRow (date : ℤ) (account_code account_name description : String)
    (debit credit : ℚ) (journal_type ref_code : String) : JournalEntry :=
  ⟨0, date, account_code, account_name, description, debit, credit, journal_type, ref_code, ""⟩

/-- The POST form of the general-journal route: one debit entry and one credit
entry (`parse_rupiah` already applied to the amounts). -/
structure GJForm where
  date : ℤ
  ref_code : String
  debit_account : String
  debit_description : String
  debit_amount : ℚ
  credit_account : String
  credit_description : String
  credit_amount : ℚ
  deriving Repr, DecidableEq

/-- The POST branch of `akuntan_journal_gj`: validates that both accounts are
chosen, both amounts positive, and `abs(debit - credit) <= 0.01`; then creates
the debit line and the credit line, each only when its account code resolves
in the registry. Returns the new journal table and the flash outcome. -/
def akuntan_journal_gj_post (accounts : List Account) (journal : List JournalEntry)
    (f : GJForm) : List JournalEntry × PostOutcome :=
  if f.debit_account == "" || f.credit_account == "" then (journal, .invalid)
  else if f.debit_amount ≤ 0 ∨ f.credit_amount ≤ 0 then (journal, .invalid)
  else if tolerance < ratAbs (f.debit_amount - f.credit_amount) then (journal, .unbalanced)
  else
    let j1 :=
      match lookupAccount accounts f.debit_account with
      | some a => journal ++
          [mkJournalRow f.date a.account_code a.account_name f.debit_description
            f.debit_amount 0 "GJ" f.ref_code]
      | none => journal
    let j2 :=
      match lookupAccount accounts f.credit_account with
      | some a => j1 ++
          [mkJournalRow f.date a.account_code a.account_name f.credit_description
            0 f.credit_amount "GJ" f.ref_code]
      | none => j1
    (j2, .success)

/-- One indexed line of the adjustment-journal form. -/
structure AJFormLine where
  account_code : String
  description : String
  debit : ℚ
  credit : ℚ
  deriving Repr, DecidableEq

/-- The entry-collection loop of `akuntan_adjustment_journal`: at most ten form
lines; a line is kept only when its account code is non-empty and resolves. -/
def ajResolved (accounts : List Account) (lines : List AJFormLine) :
    List (AJFormLine × Account) :=
  (lines.take 10).filterMap (fun l =>
    if l.account_code == "" then none
    else
      match lookupAccount accounts l.account_code with
      | some a => some (l, a)
      | none => none)

/-- The POST branch of `akuntan_adjustment_journal`: collects the resolved form
lines, checks `abs(total_debit - total_credit) <= 0.01` over them, and on
success inserts every resolved line as an `AJ` journal row. -/
def akuntan_adjustment_post (accounts : List Account) (journal : List JournalEntry)
    (date : ℤ) (lines : List AJFormLine) : List JournalEntry × PostOutcome :=
  let entries := ajResolved accounts lines
  let total_debit := (entries.map (fun p => p.1.debit)).sum
  let total_credit := (entries.map (fun p => p.1.credit)).sum
  if tolerance < ratAbs (total_debit - total_credit) then (journal, .unbalanced)
  else
    (journal ++ entries.map (fun p =>
       mkJournalRow date p.1.account_code p.2.account_name p.1.description
         p.1.debit p.1.credit "AJ" ("AJ" ++ toString date)), .success)

/-! ### Inventory costing ledger (`process_purchase`, `process_sale`,
`recalculate_inventory_balances`) -/

/-- A row of the `inventory_card` table. -/
structure InventoryCardRow where
  id : Nat
  date : ℤ
  doc_no : String
  description : String
  product_name : String
  purchase_quantity : ℚ
  purchase_unit_price : ℚ
  purchase_amount : ℚ
  sales_quantity : ℚ
  sales_unit_price : ℚ
  sales_amount : ℚ
  balance_quantity : ℚ
  balance_unit_price : ℚ
  balance_amount : ℚ
  employee : String
  deriving Repr, DecidableEq

/-- A row of the `sales` table. -/
structure SaleRecord where
  date : ℤ
  item_name : String
  quantity : ℚ
  unit_price : ℚ
  total_amount : ℚ
  employee_username : String
  status : String
  deriving Repr, DecidableEq

/-- A row of the `purchases` table. -/
structure PurchaseRecord where
  date : ℤ
  item_type : String
  item_name : String
  quantity : ℚ
  unit_price : ℚ
  total_amount : ℚ
  employee_username : String
  status : String
  deriving Repr, DecidableEq

/-- The tables touched by the purchase/sale flows. -/
structure StoreState where
  purchases : List PurchaseRecord
  sales : List SaleRecord
  journal : List JournalEntry
  inventory : List InventoryCardRow
  deriving Repr, DecidableEq

/-- `get_last_inventory_entry(product_name)`:
`.eq('product_name', p).order('id', desc=True).limit(1)` — the matching row
with the greatest database id. -/
def get_last_inventory_entry (inv : List InventoryCardRow) (product_name : String) :
    Option InventoryCardRow :=
  (inv.filter (fun r => r.product_name == product_name)).foldl
    (fun acc r =>
      match acc with
      | none => some r
      | some m => if m.id ≤ r.id then some r else some m)
    none

/-- A fresh serial primary key for an inventory-card insert. -/
def freshInvId (inv : List InventoryCardRow) : Nat :=
  inv.foldl (fun n r => max n r.id) 0 + 1

/-- The `account_mapping` dict of `process_purchase`:
item type to (debit account, credit account). -/
def purchaseAccountMapping : String → Option ((String × String) × (String × String))
  | "bibit" => some (("1-1200", "Persediaan Ikan Mujair"), ("1-1000", "Kas"))
  | "perlengkapan" => some (("1-1300", "Perlengkapan"), ("1-1000", "Kas"))
  | "peralatan" => some (("1-2200", "Peralatan"), ("1-1000", "Kas"))
  | _ => none

/-- `process_purchase`: inserts the purchase record, then the paired journal
lines, and (for `bibit` purchases) the inventory-card row whose balances are
recomputed from the product's prior row. An unknown item type fails after the
purchase record was already inserted. Returns the new state and success flag. -/
def process_purchase (st : StoreState) (date : ℤ) (item_type item_name : String)
    (quantity unit_price total_amount : ℚ) (employee description ref_code : String) :
    StoreState × Bool :=
  let purchases' := st.purchases ++
    [⟨date, item_type, item_name, quantity, unit_price, total_amount, employee, "approved"⟩]
  match purchaseAccountMapping item_type with
  | none => ({ st with purchases := purchases' }, false)
  | some (debitAcc, creditAcc) =>
    let journal' := st.journal ++
      [mkJournalRow date debitAcc.1 debitAcc.2 description total_amount 0 "GJ" ref_code,
       mkJournalRow date creditAcc.1 creditAcc.2 description 0 total_amount "GJ" ref_code]
    if item_type == "bibit" then
      let last := get_last_inventory_entry st.inventory item_name
      let last_qty := match last with | some r => r.balance_quantity | none => 0
      let last_balance_amount := match last with | some r => r.balance_amount | none => 0
      let new_balance_qty := last_qty + quantity
      let new_balance_amount := last_balance_amount + total_amount
      let new_avg_price := if 0 < new_balance_qty then new_balance_amount / new_balance_qty else 0
      ({ st with
          purchases := purchases',
          journal := journal',
          inventory := st.inventory ++
            [⟨freshInvId st.inventory, date, ref_code, description, item_name,
              quantity, unit_price, total_amount, 0, 0, 0,
              new_balance_qty, new_avg_price, new_balance_amount, employee⟩] }, true)
    else
      ({ st with
          purchases := purchases',
          journal := journal' }, true)

/-- `process_sale`: inserts the sale record first, then checks the stock; an
insufficient balance aborts with the sale record already written. Otherwise the
four journal lines (sale and cost of goods sold at the prior moving-average
unit cost) and the inventory-card row are written. -/
def process_sale (st : StoreState) (date : ℤ) (item_name : String)
    (quantity unit_price total_amount : ℚ) (employee description ref_code : String) :
    StoreState × Bool :=
  let sales' := st.sales ++
    [⟨date, item_name, quantity, unit_price, total_amount, employee, "completed"⟩]
  match get_last_inventory_entry st.inventory item_name with
  | none => ({ st with sales := sales' }, false)
  | some last_entry =>
    if last_entry.balance_quantity < quantity then ({ st with sales := sales' }, false)
    else
      let hpp_unit_price := last_entry.balance_unit_price
      let hpp_total_amount := quantity * hpp_unit_price
      let journal' := st.journal ++
        [mkJournalRow date "1-1000" "Kas" description total_amount 0 "GJ" ref_code,
         mkJournalRow date "4-1000" "Pendapatan Penjualan" description 0 total_amount "GJ" ref_code,
         mkJournalRow date "5-1000" "Beban Pokok Penjualan" ("HPP untuk " ++ ref_code)
           hpp_total_amount 0 "GJ" ref_code,
         mkJournalRow date "1-1200" "Persediaan Ikan Mujair" ("HPP untuk " ++ ref_code)
           0 hpp_total_amount "GJ" ref_code]
      let new_balance_qty := last_entry.balance_quantity - quantity
      let new_balance_amount := last_entry.balance_amount - hpp_total_amount
      let new_avg_price := if 0 < new_balance_qty then new_balance_amount / new_balance_qty else 0
      ({ st with
          sales := sales',
          journal := journal',
          inventory := st.inventory ++
            [⟨freshInvId st.inventory, date, ref_code, description, item_name,
              0, 0, 0, quantity, hpp_unit_price, hpp_total_amount,
              new_balance_qty, new_avg_price, new_balance_amount, employee⟩] }, true)

/-- The `(date, id)` sort key of the recalculation query. -/
def invKeyLE (a b : InventoryCardRow) : Bool :=
  a.date < b.date || (a.date == b.date && a.id ≤ b.id)

/-- The recalculation loop: one running `(quantity, amount)` pair carried over
the whole ordered table, each row's balance fields overwritten in turn. -/
def applyRunningBalances (balance_qty balance_amount : ℚ) :
    List InventoryCardRow → List InventoryCardRow
  | [] => []
  | r :: rest =>
    let q := balance_qty + r.purchase_quantity - r.sales_quantity
    let m := balance_amount + r.purchase_amount - r.sales_amount
    let avg_price := if 0 < q then m / q else 0
    { r with balance_quantity := q, balance_amount := m, balance_unit_price := avg_price } ::
      applyRunningBalances q m rest

/-- `recalculate_inventory_balances()`: orders all inventory-card rows by
`(date, id)` and re-derives every row's balance fields from zero. -/
def recalculate_inventory_balances (rows : List InventoryCardRow) : List InventoryCardRow :=
  applyRunningBalances 0 0 (rows.mergeSort invKeyLE)

/-- An inventory card with one prior row: 6 kg on hand at average cost 1000
(balance amount 6000). -/
def demoInvRow : InventoryCardRow :=
  ⟨1, 1, "BL001", "beli", "Ikan Mujair", 10, 1000, 10000, 4, 1000, 4000, 6, 1000, 6000, "emp"⟩

/-- A demo store state with an inventory balance of 6 kg and empty other tables. -/
def demoState : StoreState := ⟨[], [], [], [demoInvRow]⟩

/-- Entries for the C1 counterexample: one reference with a 100 cash receipt
split against two revenue lines of 60 and 40, so no single counterpart line
offsets the cash movement within the matcher's tolerance. -/
def c1entries : List JournalEntry :=
  [⟨1, 5, "1-1000", "Kas", "penjualan", 100, 0, "GJ", "CF1", ""⟩,
   ⟨2, 5, "4-1000", "Penjualan", "penjualan", 0, 60, "GJ", "CF1", ""⟩,
   ⟨3, 5, "4-1000", "Penjualan", "penjualan", 0, 40, "GJ", "CF1", ""⟩]

/-! ## Theorems -/

theorem ratAbs_eq_abs (v : ℚ) : ratAbs v = |v| := by
  by_cases h : v < 0
  · simp [ratAbs, h, abs_of_neg h]
  · simp [ratAbs, h, abs_of_nonneg (not_lt.mp h)]

theorem get_final_balances_eq_filterMap (accounts : List Account)
    (entries : List JournalEntry) (end_date : Option ℤ)
    (journal_types : Option (List String)) :
    get_final_balances accounts entries end_date journal_types =
      (dedupKeys (accounts.map (·.account_code))).filterMap (fun code =>
        match lastAccount accounts code with
        | none => none
        | some a =>
          if keepRow code (finalBalanceFun accounts entries end_date journal_types code) then
            some ⟨code, a.account_name, a.normal_balance,
              finalBalanceFun accounts entries end_date journal_types code⟩
          else none) := rfl

/-! ### List-summation helper lemmas -/

theorem sum_map_sub {α : Type} (l : List α) (f g : α → ℚ) :
    (l.map (fun x => f x - g x)).sum = (l.map f).sum - (l.map g).sum := by
  induction l with
  | nil => simp
  | cons x xs ih => simp [ih]; ring

theorem dedupKeysAux_subset (l : List String) :
    ∀ (seen : List String), ∀ c ∈ dedupKeysAux seen l, c ∈ l := by
  induction l with
  | nil => intro seen c hc; simp [dedupKeysAux] at hc
  | cons x rest ih =>
    intro seen c hc
    by_cases hx : x ∈ seen
    · simp only [dedupKeysAux, if_pos hx] at hc
      exact List.mem_cons_of_mem x (ih seen c hc)
    · simp only [dedupKeysAux, if_neg hx] at hc
      rcases List.mem_cons.mp hc with h | h
      · simp [h]
      · exact List.mem_cons_of_mem x (ih (x :: seen) c h)

theorem dedupKeys_subset (l : List String) : ∀ c ∈ dedupKeys l, c ∈ l :=
  dedupKeysAux_subset l []

theorem dedupKeysAux_not_seen (l : List String) :
    ∀ (seen : List String), ∀ c ∈ dedupKeysAux seen l, c ∉ seen := by
  induction l with
  | nil => intro seen c hc; simp [dedupKeysAux] at hc
  | cons x rest ih =>
    intro seen c hc
    by_cases hx : x ∈ seen
    · simp only [dedupKeysAux, if_pos hx] at hc
      exact ih seen c hc
    · simp only [dedupKeysAux, if_neg hx] at hc
      rcases List.mem_cons.mp hc with h | h
      · subst h; exact hx
      · intro hcs
        exact ih (x :: seen) c h (List.mem_cons_of_mem x hcs)

theorem dedupKeysAux_nodup (l : List String) :
    ∀ (seen : List String), (dedupKeysAux seen l).Nodup := by
  induction l with
  | nil => intro seen; simp [dedupKeysAux]
  | cons x rest ih =>
    intro seen
    by_cases hx : x ∈ seen
    · simpa only [dedupKeysAux, if_pos hx] using ih seen
    · simp only [dedupKeysAux, if_neg hx, List.nodup_cons]
      refine ⟨fun hmem => ?_, ih (x :: seen)⟩
      exact dedupKeysAux_not_seen rest (x :: seen) x hmem (List.mem_cons_self x seen)

theorem dedupKeys_nodup (l : List String) : (dedupKeys l).Nodup :=
  dedupKeysAux_nodup l []

theorem dedupKeysAux_complete (l : List String) :
    ∀ (seen : List String), ∀ c ∈ l, c ∉ seen → c ∈ dedupKeysAux seen l := by
  induction l with
  | nil => intro seen c hc; simp at hc
  | cons x rest ih =>
    intro seen c hc hcs
    rcases List.mem_cons.mp hc with h | h
    · subst h
      by_cases hx : c ∈ seen
      · exact absurd hx hcs
      · simp [dedupKeysAux, if_neg hx]
    · by_cases hx : x ∈ seen
      · simp only [dedupKeysAux, if_pos hx]
        exact ih seen c h hcs
      · simp only [dedupKeysAux, if_neg hx]
        by_cases hxc : c = x
        · subst hxc; simp
        · exact List.mem_cons_of_mem x
            (ih (x :: seen) c h (by simp [hxc, hcs]))

theorem dedupKeys_complete (l : List String) : ∀ c ∈ l, c ∈ dedupKeys l :=
  fun c hc => dedupKeysAux_complete l [] c hc (by simp)

/-- Splitting a mapped sum along a boolean test. -/
theorem sum_map_filter_split {α : Type} (l : List α) (p : α → Bool) (f : α → ℚ) :
    ((l.filter p).map f).sum + ((l.filter (fun a => ¬ p a)).map f).sum = (l.map f).sum := by
  induction l with
  | nil => simp
  | cons x xs ih =>
    by_cases hx : p x
    · simp [List.filter_cons, hx, ← ih]; ring
    · simp [List.filter_cons, hx, ← ih]; ring

/-- Partitioning a mapped sum by a key function: summing, over a duplicate-free
covering list of keys, the sums of the matching rows gives the total sum. -/
theorem sum_partition_by_keys {α : Type} (key : α → String) (f : α → ℚ) :
    ∀ (ks : List String) (L : List α), ks.Nodup → (∀ e ∈ L, key e ∈ ks) →
      (ks.map (fun k => ((L.filter (fun e => key e == k)).map f).sum)).sum = (L.map f).sum := by
  intro ks
  induction ks with
  | nil =>
    intro L _ hcov
    cases L with
    | nil => simp
    | cons e es => exact absurd (hcov e (by simp)) (by simp)
  | cons k rest ih =>
    intro L hnd hcov
    simp only [List.nodup_cons] at hnd
    obtain ⟨hk, hrest⟩ := hnd
    have hsplit := sum_map_filter_split L (fun e => key e == k) f
    have hL' : ∀ e ∈ L.filter (fun e => ¬ (key e == k)), key e ∈ rest := by
      intro e he
      have hmem := List.mem_of_mem_filter he
      have hne : ¬ (key e == k) = true := by
        have := List.of_mem_filter he
        simpa using this
      have hke : key e ≠ k := by simpa using hne
      rcases List.mem_cons.mp (hcov e hmem) with h | h
      · exact absurd h hke
      · exact h
    have hfilters : ∀ k' ∈ rest,
        (L.filter (fun e => ¬ (key e == k))).filter (fun e => key e == k') =
          L.filter (fun e => key e == k') := by
      intro k' hk'
      rw [List.filter_filter]
      apply List.filter_congr
      intro e _
      by_cases h : key e = k'
      · have hne : key e ≠ k := fun hek => hk (hek ▸ h ▸ hk')
        have hne' : ¬ k' = k := fun hk'k => hk (hk'k ▸ hk')
        simp [h, hne']
      · simp [h]
    have ihr := ih (L.filter (fun e => ¬ (key e == k))) hrest hL'
    calc ((k :: rest).map (fun k => ((L.filter (fun e => key e == k)).map f).sum)).sum
        = ((L.filter (fun e => key e == k)).map f).sum +
            (rest.map (fun k' => ((L.filter (fun e => key e == k')).map f).sum)).sum := by
          simp
      _ = ((L.filter (fun e => key e == k)).map f).sum +
            (rest.map (fun k' =>
              (((L.filter (fun e => ¬ (key e == k))).filter (fun e => key e == k')).map f).sum)).sum := by
          congr 1
          apply congrArg List.sum
          apply List.map_congr_left
          intro k' hk'
          rw [hfilters k' hk']
      _ = ((L.filter (fun e => key e == k)).map f).sum +
            ((L.filter (fun e => ¬ (key e == k))).map f).sum := by rw [ihr]
      _ = (L.map f).sum := hsplit

/-- With duplicate-free registry codes, the last matching registry row and the
first matching registry row coincide. -/
theorem lastAccount_eq_lookup (accounts : List Account) (code : String)
    (hN : (accounts.map (·.account_code)).Nodup) :
    lastAccount accounts code = lookupAccount accounts code := by
  induction accounts with
  | nil => rfl
  | cons a rest ih =>
    simp only [List.map_cons, List.nodup_cons] at hN
    obtain ⟨hna, hrest⟩ := hN
    by_cases h : a.account_code = code
    · have hnone : rest.reverse.find? (fun b => b.account_code == code) = none := by
        apply List.find?_eq_none.mpr
        intro b hb
        have hb' : b ∈ rest := List.mem_reverse.mp hb
        have : b.account_code ≠ a.account_code := by
          intro he
          exact hna (he ▸ List.mem_map_of_mem (·.account_code) hb')
        simp [h ▸ this]
      simp [lastAccount, lookupAccount, List.find?_append, hnone, h]
    · have ha : (fun b => b.account_code == code) a = false := by simp [h]
      simp only [lastAccount, lookupAccount, List.reverse_cons, List.find?_append,
        List.find?_cons, ha]
      have := ih hrest
      simp only [lastAccount, lookupAccount] at this
      rw [this]
      cases hfind : rest.find? (fun b => b.account_code == code) <;> simp

/-- Unfolding the per-entry loop of `get_final_balances` at one registered code:
the final balance is the initial value plus the summed signed deltas of the
lines posted to that code. -/
theorem applyEntries_eq (accounts : List Account) (init : String → ℚ)
    (l : List JournalEntry) (code : String) (a : Account)
    (ha : lastAccount accounts code = some a) :
    applyEntries accounts init l code =
      init code + ((l.filter (fun e => e.account_code == code)).map (entryDelta a)).sum := by
  induction l generalizing init with
  | nil => simp [applyEntries]
  | cons e rest ih =>
    have hstep : applyEntries accounts init (e :: rest) =
        applyEntries accounts
          (match lastAccount accounts e.account_code with
           | none => init
           | some b => fun c => if c == e.account_code then init c + entryDelta b e else init c)
          rest := rfl
    by_cases hce : e.account_code = code
    · subst hce
      rw [hstep, ha, ih _]
      simp [ha]
      ring
    · have hne : (e.account_code == code) = false := by simp [hce]
      rw [hstep]
      cases hb : lastAccount accounts e.account_code with
      | none =>
        rw [ih init]
        simp [hne]
      | some b =>
        rw [ih _]
        have hcc : (code == e.account_code) = false := by
          simp only [beq_eq_false_iff_ne, ne_eq]
          exact fun h => hce h.symm
        simp [hcc, hne]

/-- C4: every row of the batched aggregator `get_final_balances` reports exactly
the single-account balance `get_ledger_balance` computes for that code under the
same date and journal-class filter, provided registry codes are unique. -/
theorem C4_final_balances_refine_ledger_balance
    (accounts : List Account) (entries : List JournalEntry)
    (end_date : Option ℤ) (journal_types : Option (List String))
    (hN : (accounts.map (·.account_code)).Nodup)
    (row : BalanceRow)
    (hrow : row ∈ get_final_balances accounts entries end_date journal_types) :
    row.amount = get_ledger_balance accounts entries row.account_code end_date journal_types := by
  obtain ⟨code, _hcode, hf⟩ := List.mem_filterMap.mp hrow
  cases hlast : lastAccount accounts code with
  | none => rw [hlast] at hf; exact absurd hf (by simp)
  | some a =>
    rw [hlast] at hf
    by_cases hkeep : keepRow code
        (applyEntries accounts
          (fun c => match lastAccount accounts c with
                    | some a => a.beginning_balance
                    | none => 0)
          (entries.filter (fun e => dateOk end_date e && typeOk journal_types e)) code) = true
    · simp only [get_final_balances, hkeep, if_true] at hf
      have hfields := hf
      injection hf with hf'
      have hcode_eq : row.account_code = code := by rw [← hf']
      have hamount : row.amount =
          applyEntries accounts
            (fun c => match lastAccount accounts c with
                      | some a => a.beginning_balance
                      | none => 0)
            (entries.filter (fun e => dateOk end_date e && typeOk journal_types e)) code := by
        rw [← hf']
      have hacode : a.account_code = code := by
        have := List.find?_some hlast
        simpa using this
      rw [hamount, hcode_eq]
      rw [applyEntries_eq accounts _ _ code a hlast]
      have hlook : lookupAccount accounts code = some a :=
        (lastAccount_eq_lookup accounts code hN) ▸ hlast
      simp only [get_ledger_balance, hlook, hlast]
      have hfilters :
          ((entries.filter (fun e => dateOk end_date e && typeOk journal_types e)).filter
            (fun e => e.account_code == code)) =
          entries.filter
            (fun e => e.account_code == code && dateOk end_date e && typeOk journal_types e) := by
        rw [List.filter_filter]
        apply List.filter_congr
        intro e _
        cases h1 : (e.account_code == code) <;>
          cases h2 : dateOk end_date e <;>
          cases h3 : typeOk journal_types e <;> rfl
      rw [hfilters]
      set es := entries.filter
        (fun e => e.account_code == code && dateOk end_date e && typeOk journal_types e) with hes
      by_cases hnb : a.normal_balance = "debit"
      · have hfun : entryDelta a = fun e => e.debit - e.credit := by
          funext e; simp [entryDelta, hnb]
        simp only [hnb, hfun]
        rw [sum_map_sub]
        simp
      · have hnb' : (a.normal_balance == "debit") = false := by simp [hnb]
        have hfun : entryDelta a = fun e => e.credit - e.debit := by
          funext e; simp [entryDelta, hnb']
        simp only [hnb', hfun]
        rw [sum_map_sub]
        simp
    · simp only [get_final_balances, hkeep] at hf
      simp at hf

/-- Witness for C4 on the demo registry with one posted sale. -/
theorem C4_final_balances_refine_ledger_balance_witness :
    (demoAccounts.map (·.account_code)).Nodup ∧
    (⟨"1-1000", "Kas", "debit", 100⟩ : BalanceRow) ∈
      get_final_balances demoAccounts demoSaleEntries (some 10) (some ["GJ", "AJ"]) ∧
    (⟨"1-1000", "Kas", "debit", 100⟩ : BalanceRow).amount =
      get_ledger_balance demoAccounts demoSaleEntries "1-1000" (some 10) (some ["GJ", "AJ"]) := by
  have h1 : (demoAccounts.map (·.account_code)).Nodup := by decide
  have h2 : (⟨"1-1000", "Kas", "debit", 100⟩ : BalanceRow) ∈
      get_final_balances demoAccounts demoSaleEntries (some 10) (some ["GJ", "AJ"]) := by
    simp [get_final_balances, demoAccounts, demoSaleEntries, dedupKeys, dedupKeysAux,
      lastAccount, lookupAccount, applyEntries, dateOk, typeOk, keepRow, entryDelta,
      strStartsWith, ratAbs, List.isPrefixOf, List.foldl, List.filter, List.filterMap,
      List.find?]
    norm_num [tolerance]
  exact ⟨h1, h2,
    C4_final_balances_refine_ledger_balance demoAccounts demoSaleEntries
      (some 10) (some ["GJ", "AJ"]) h1 _ h2⟩

theorem sum_map_add {α : Type} (l : List α) (f g : α → ℚ) :
    (l.map (fun x => f x + g x)).sum = (l.map f).sum + (l.map g).sum := by
  induction l with
  | nil => simp
  | cons x xs ih => simp [ih]; ring

theorem sum_filter_eq_sum_ite {α : Type} (l : List α) (p : α → Bool) (g : α → ℚ) :
    ((l.filter p).map g).sum = (l.map (fun x => if p x then g x else 0)).sum := by
  induction l with
  | nil => simp
  | cons x xs ih =>
    by_cases hx : p x
    · simp [List.filter_cons, hx, ih]
    · simp [List.filter_cons, hx, ih]

theorem sum_filterMap {α β : Type} (l : List α) (f : α → Option β) (G : β → ℚ) :
    ((l.filterMap f).map G).sum = (l.map (fun x => (f x).elim 0 G)).sum := by
  induction l with
  | nil => simp
  | cons x xs ih =>
    cases hx : f x with
    | none => simp [List.filterMap_cons, hx, ih]
    | some b => simp [List.filterMap_cons, hx, ih]

/-- The asset-total loop of `generate_balance_sheet` as a signed sum. -/
theorem foldl_signed_sum (l : List BalanceRow) :
    ∀ t0 : ℚ, l.foldl
      (fun t item =>
        if item.normal_balance == "debit" then t + item.amount
        else if item.normal_balance == "credit" then t - item.amount
        else t) t0 =
      t0 + (l.map (fun item =>
        if item.normal_balance == "debit" then item.amount
        else if item.normal_balance == "credit" then -item.amount
        else 0)).sum := by
  induction l with
  | nil => intro t0; simp
  | cons x xs ih =>
    intro t0
    rw [List.foldl_cons, ih]
    by_cases h1 : x.normal_balance = "debit"
    · simp [h1]; ring
    · by_cases h2 : x.normal_balance = "credit"
      · simp [h1, h2]; ring
      · simp [h1, h2]

theorem dedupKeysAux_eq_self (l : List String) :
    ∀ seen, l.Nodup → (∀ c ∈ l, c ∉ seen) → dedupKeysAux seen l = l := by
  induction l with
  | nil => intro seen _ _; rfl
  | cons x rest ih =>
    intro seen hnd hout
    have hx : x ∉ seen := hout x (by simp)
    simp only [dedupKeysAux, if_neg hx, List.cons.injEq, true_and]
    apply ih (x :: seen) (List.nodup_cons.mp hnd).2
    intro c hc
    simp only [List.mem_cons, not_or]
    exact ⟨fun he => (List.nodup_cons.mp hnd).1 (he ▸ hc),
           hout c (List.mem_cons_of_mem x hc)⟩

theorem dedupKeys_eq_self {l : List String} (h : l.Nodup) : dedupKeys l = l :=
  dedupKeysAux_eq_self l [] h (by simp)

/-- With duplicate-free registry codes, looking up an account's own code finds
that account. -/
theorem lastAccount_self (accounts : List Account)
    (h1 : (accounts.map (·.account_code)).Nodup) :
    ∀ a ∈ accounts, lastAccount accounts a.account_code = some a := by
  intro a ha
  rw [lastAccount_eq_lookup _ _ h1]
  unfold lookupAccount
  induction accounts with
  | nil => cases ha
  | cons b rest ih =>
    simp only [List.map_cons, List.nodup_cons] at h1
    rcases List.mem_cons.mp ha with he | he
    · subst he
      simp [List.find?_cons]
    · have hne : b.account_code ≠ a.account_code := by
        intro h
        exact h1.1 (h ▸ List.mem_map_of_mem (·.account_code) he)
      have hb : (fun x => x.account_code == a.account_code) b = false := by
        simp [hne]
      simp only [List.find?_cons, hb]
      exact ih h1.2 he

theorem strStartsWith_eq_of_same_length {c p q : String}
    (hp : strStartsWith c p = true) (hq : strStartsWith c q = true)
    (hl : p.data.length = q.data.length) : p = q := by
  unfold strStartsWith at hp hq
  obtain ⟨t1, ht1⟩ := List.isPrefixOf_iff_prefix.mp hp
  obtain ⟨t2, ht2⟩ := List.isPrefixOf_iff_prefix.mp hq
  have hdata : p.data = q.data := (List.append_inj (ht1.trans ht2.symm) hl).1
  cases p
  cases q
  exact congrArg String.mk hdata

/-- Two distinct two-character class markers cannot both begin one code. -/
theorem class_marker_unique {c p q : String}
    (hp : strStartsWith c p = true) (hq : strStartsWith c q = true)
    (hl : p.data.length = q.data.length) (hne : p ≠ q) : False :=
  hne (strStartsWith_eq_of_same_length hp hq hl)

/-- Summing a per-row function over `get_final_balances` equals summing it over
all registered accounts, provided the function vanishes on rows the materiality
filter drops. -/
theorem sum_over_final_balances (accounts : List Account) (entries : List JournalEntry)
    (end_date : Option ℤ) (journal_types : Option (List String))
    (h1 : (accounts.map (·.account_code)).Nodup)
    (G : BalanceRow → ℚ)
    (hG0 : ∀ a ∈ accounts,
      keepRow a.account_code
        (finalBalanceFun accounts entries end_date journal_types a.account_code) = false →
      G ⟨a.account_code, a.account_name, a.normal_balance,
         finalBalanceFun accounts entries end_date journal_types a.account_code⟩ = 0) :
    ((get_final_balances accounts entries end_date journal_types).map G).sum =
      (accounts.map (fun a => G ⟨a.account_code, a.account_name, a.normal_balance,
        finalBalanceFun accounts entries end_date journal_types a.account_code⟩)).sum := by
  rw [get_final_balances_eq_filterMap, dedupKeys_eq_self h1, sum_filterMap, List.map_map]
  apply congrArg List.sum
  apply List.map_congr_left
  intro a ha
  have hlast := lastAccount_self accounts h1 a ha
  simp only [Function.comp_apply, hlast]
  by_cases hk : keepRow a.account_code
      (finalBalanceFun accounts entries end_date journal_types a.account_code) = true
  · simp [hk]
  · have hk' := Bool.eq_false_iff.mpr hk
    simp [hk, hG0 a ha hk']

theorem not_marker_of_marker {c p q : String} (hp : strStartsWith c p = true)
    (hl : p.data.length = q.data.length) (hne : p ≠ q) :
    strStartsWith c q = false := by
  cases hq : strStartsWith c q with
  | false => rfl
  | true => exact absurd (strStartsWith_eq_of_same_length hp hq hl) hne

theorem beq_drawings_false_of_marker {c p : String} (hp : strStartsWith c p = true)
    (hl : p.data.length = 2) (hne : p ≠ "3-") : (c == "3-1100") = false := by
  cases hq : c == "3-1100" with
  | false => rfl
  | true =>
    have hc : c = "3-1100" := by simpa using hq
    subst hc
    have h3 : strStartsWith "3-1100" "3-" = true := by decide
    exact absurd (strStartsWith_eq_of_same_length hp h3 (by rw [hl]; decide)) hne

/-- One account's combined contribution to
`assets - liabilities - initial_equity - revenue + expenses + drawings` is its
debit-positive balance, given the class/normal-balance alignment of the
registry. -/
theorem combo_eq_signedBalance (a : Account) (v : ℚ)
    (h5 : strStartsWith a.account_code "1-" ∨ strStartsWith a.account_code "2-" ∨
      strStartsWith a.account_code "3-" ∨ strStartsWith a.account_code "4-" ∨
      strStartsWith a.account_code "5-" ∨ strStartsWith a.account_code "6-")
    (h6 : strStartsWith a.account_code "2-" → a.normal_balance = "credit")
    (h7 : strStartsWith a.account_code "3-" → a.account_code ≠ "3-1100" →
      a.normal_balance = "credit")
    (h7b : a.account_code = "3-1100" → a.normal_balance = "debit")
    (h8 : strStartsWith a.account_code "4-" → a.normal_balance = "credit")
    (h9 : strStartsWith a.account_code "5-" ∨ strStartsWith a.account_code "6-" →
      a.normal_balance = "debit")
    (h11 : strStartsWith a.account_code "1-" →
      a.normal_balance = "debit" ∨ a.normal_balance = "credit") :
    assetVal ⟨a.account_code, a.account_name, a.normal_balance, v⟩ -
      liabilityVal ⟨a.account_code, a.account_name, a.normal_balance, v⟩ -
      initialEquityVal ⟨a.account_code, a.account_name, a.normal_balance, v⟩ -
      revenueVal ⟨a.account_code, a.account_name, a.normal_balance, v⟩ +
      expenseVal ⟨a.account_code, a.account_name, a.normal_balance, v⟩ +
      drawingsVal ⟨a.account_code, a.account_name, a.normal_balance, v⟩ =
    signedBalance a v := by
  rcases h5 with h | h | h | h | h | h
  · have n2 := not_marker_of_marker h (by decide) (show "1-" ≠ "2-" by decide)
    have n3 := not_marker_of_marker h (by decide) (show "1-" ≠ "3-" by decide)
    have n4 := not_marker_of_marker h (by decide) (show "1-" ≠ "4-" by decide)
    have n5 := not_marker_of_marker h (by decide) (show "1-" ≠ "5-" by decide)
    have n6 := not_marker_of_marker h (by decide) (show "1-" ≠ "6-" by decide)
    have nd := beq_drawings_false_of_marker h (by decide) (show "1-" ≠ "3-" by decide)
    rcases h11 h with hnb | hnb <;>
      simp [assetVal, liabilityVal, initialEquityVal, drawingsVal, revenueVal,
        expenseVal, signedBalance, h, n2, n3, n4, n5, n6, nd, hnb]
  · have n3 := not_marker_of_marker h (by decide) (show "2-" ≠ "3-" by decide)
    have n4 := not_marker_of_marker h (by decide) (show "2-" ≠ "4-" by decide)
    have n5 := not_marker_of_marker h (by decide) (show "2-" ≠ "5-" by decide)
    have n6 := not_marker_of_marker h (by decide) (show "2-" ≠ "6-" by decide)
    have n1 := not_marker_of_marker h (by decide) (show "2-" ≠ "1-" by decide)
    have nd := beq_drawings_false_of_marker h (by decide) (show "2-" ≠ "3-" by decide)
    have hnb := h6 h
    simp [assetVal, liabilityVal, initialEquityVal, drawingsVal, revenueVal,
      expenseVal, signedBalance, h, n1, n3, n4, n5, n6, nd, hnb]
  · have n1 := not_marker_of_marker h (by decide) (show "3-" ≠ "1-" by decide)
    have n2 := not_marker_of_marker h (by decide) (show "3-" ≠ "2-" by decide)
    have n4 := not_marker_of_marker h (by decide) (show "3-" ≠ "4-" by decide)
    have n5 := not_marker_of_marker h (by decide) (show "3-" ≠ "5-" by decide)
    have n6 := not_marker_of_marker h (by decide) (show "3-" ≠ "6-" by decide)
    by_cases hd : a.account_code = "3-1100"
    · have hnb := h7b hd
      simp [assetVal, liabilityVal, initialEquityVal, drawingsVal, revenueVal,
        expenseVal, signedBalance, h, n1, n2, n4, n5, n6, hd, hnb,
        show strStartsWith "3-1100" "1-" = false from by decide,
        show strStartsWith "3-1100" "2-" = false from by decide,
        show strStartsWith "3-1100" "4-" = false from by decide,
        show strStartsWith "3-1100" "5-" = false from by decide,
        show strStartsWith "3-1100" "6-" = false from by decide]
    · have hnb := h7 h hd
      simp [assetVal, liabilityVal, initialEquityVal, drawingsVal, revenueVal,
        expenseVal, signedBalance, h, n1, n2, n4, n5, n6, hd, hnb]
  · have n1 := not_marker_of_marker h (by decide) (show "4-" ≠ "1-" by decide)
    have n2 := not_marker_of_marker h (by decide) (show "4-" ≠ "2-" by decide)
    have n3 := not_marker_of_marker h (by decide) (show "4-" ≠ "3-" by decide)
    have n5 := not_marker_of_marker h (by decide) (show "4-" ≠ "5-" by decide)
    have n6 := not_marker_of_marker h (by decide) (show "4-" ≠ "6-" by decide)
    have nd := beq_drawings_false_of_marker h (by decide) (show "4-" ≠ "3-" by decide)
    have hnb := h8 h
    simp [assetVal, liabilityVal, initialEquityVal, drawingsVal, revenueVal,
      expenseVal, signedBalance, h, n1, n2, n3, n5, n6, nd, hnb]
  · have n1 := not_marker_of_marker h (by decide) (show "5-" ≠ "1-" by decide)
    have n2 := not_marker_of_marker h (by decide) (show "5-" ≠ "2-" by decide)
    have n3 := not_marker_of_marker h (by decide) (show "5-" ≠ "3-" by decide)
    have n4 := not_marker_of_marker h (by decide) (show "5-" ≠ "4-" by decide)
    have nd := beq_drawings_false_of_marker h (by decide) (show "5-" ≠ "3-" by decide)
    have hnb := h9 (Or.inl h)
    simp [assetVal, liabilityVal, initialEquityVal, drawingsVal, revenueVal,
      expenseVal, signedBalance, h, n1, n2, n3, n4, nd, hnb]
  · have n1 := not_marker_of_marker h (by decide) (show "6-" ≠ "1-" by decide)
    have n2 := not_marker_of_marker h (by decide) (show "6-" ≠ "2-" by decide)
    have n3 := not_marker_of_marker h (by decide) (show "6-" ≠ "3-" by decide)
    have n4 := not_marker_of_marker h (by decide) (show "6-" ≠ "4-" by decide)
    have nd := beq_drawings_false_of_marker h (by decide) (show "6-" ≠ "3-" by decide)
    have hnb := h9 (Or.inr h)
    simp [assetVal, liabilityVal, initialEquityVal, drawingsVal, revenueVal,
      expenseVal, signedBalance, h, n1, n2, n3, n4, nd, hnb]

/-- The running balance a registered account reaches in the aggregation loop:
beginning balance plus the summed signed deltas of its filtered lines. -/
theorem finalBalanceFun_eq_of_mem (accounts : List Account) (entries : List JournalEntry)
    (end_date : Option ℤ) (journal_types : Option (List String))
    (h1 : (accounts.map (·.account_code)).Nodup) (a : Account) (ha : a ∈ accounts) :
    finalBalanceFun accounts entries end_date journal_types a.account_code =
      a.beginning_balance +
        (((entries.filter (fun e => dateOk end_date e && typeOk journal_types e)).filter
          (fun e => e.account_code == a.account_code)).map (entryDelta a)).sum := by
  unfold finalBalanceFun
  rw [applyEntries_eq accounts _ _ a.account_code a (lastAccount_self accounts h1 a ha)]
  simp [lastAccount_self accounts h1 a ha]

/-- The debit-positive reading of a registered account's final balance. -/
theorem signedBalance_finalBalanceFun (accounts : List Account)
    (entries : List JournalEntry) (end_date : Option ℤ)
    (journal_types : Option (List String))
    (h1 : (accounts.map (·.account_code)).Nodup) (a : Account) (ha : a ∈ accounts) :
    signedBalance a (finalBalanceFun accounts entries end_date journal_types a.account_code) =
      (if a.normal_balance == "debit" then a.beginning_balance else -a.beginning_balance) +
        (((entries.filter (fun e => dateOk end_date e && typeOk journal_types e)).filter
          (fun e => e.account_code == a.account_code)).map
          (fun e => e.debit - e.credit)).sum := by
  have hfa := finalBalanceFun_eq_of_mem accounts entries end_date journal_types h1 a ha
  by_cases hnb : a.normal_balance = "debit"
  · have hed : entryDelta a = fun e => e.debit - e.credit :=
      funext (fun e => by simp [entryDelta, hnb])
    simp [signedBalance, hnb, hfa, hed]
  · have hnb' : (a.normal_balance == "debit") = false := by simp [hnb]
    have hed : entryDelta a = fun e => e.credit - e.debit :=
      funext (fun e => by simp [entryDelta, hnb'])
    simp only [signedBalance, hnb', Bool.false_eq_true, if_false, hfa, hed]
    rw [sum_map_sub, sum_map_sub]
    ring

/-- Double entry globally: when every filtered line is registered, every
reference code's filtered lines balance exactly, and the signed beginning
balances sum to zero, the debit-positive final balances sum to zero. -/
theorem sum_signedBalance_zero (accounts : List Account) (entries : List JournalEntry)
    (end_date : Option ℤ) (journal_types : Option (List String))
    (h1 : (accounts.map (·.account_code)).Nodup)
    (h2 : ∀ e ∈ entries, dateOk end_date e = true → typeOk journal_types e = true →
      ∃ a ∈ accounts, a.account_code = e.account_code)
    (h3 : ∀ rc : String,
      (((entries.filter (fun e => dateOk end_date e && typeOk journal_types e)).filter
        (fun e => e.ref_code == rc)).map (fun e => e.debit - e.credit)).sum = 0)
    (h4 : (accounts.map (fun a =>
      if a.normal_balance == "debit" then a.beginning_balance
      else -a.beginning_balance)).sum = 0) :
    (accounts.map (fun a =>
      signedBalance a
        (finalBalanceFun accounts entries end_date journal_types a.account_code))).sum = 0 := by
  classical
  set F := entries.filter (fun e => dateOk end_date e && typeOk journal_types e) with hFdef
  rw [List.map_congr_left
    (fun a ha => signedBalance_finalBalanceFun accounts entries end_date journal_types h1 a ha)]
  rw [sum_map_add, h4, zero_add]
  have hmapmap :
      accounts.map (fun a =>
        ((F.filter (fun e => e.account_code == a.account_code)).map
          (fun e => e.debit - e.credit)).sum) =
      (accounts.map (·.account_code)).map (fun c =>
        ((F.filter (fun e => e.account_code == c)).map
          (fun e => e.debit - e.credit)).sum) := by
    rw [List.map_map]
    rfl
  rw [hmapmap]
  have hcov1 : ∀ e ∈ F, e.account_code ∈ accounts.map (·.account_code) := by
    intro e he
    rw [hFdef] at he
    obtain ⟨hee, hff⟩ := List.mem_filter.mp he
    obtain ⟨hd1, hd2⟩ := (Bool.and_eq_true _ _).mp hff
    obtain ⟨a, ha, hac⟩ := h2 e hee hd1 hd2
    exact hac ▸ List.mem_map_of_mem (·.account_code) ha
  rw [sum_partition_by_keys (·.account_code) (fun e => e.debit - e.credit)
    (accounts.map (·.account_code)) F h1 hcov1]
  have hcov2 : ∀ e ∈ F, e.ref_code ∈ dedupKeys (F.map (·.ref_code)) := by
    intro e he
    exact dedupKeys_complete _ _ (List.mem_map_of_mem (·.ref_code) he)
  rw [← sum_partition_by_keys (·.ref_code) (fun e => e.debit - e.credit)
    (dedupKeys (F.map (·.ref_code))) F (dedupKeys_nodup _) hcov2]
  apply List.sum_eq_zero
  intro x hx
  obtain ⟨rc, _, hrc⟩ := List.mem_map.mp hx
  rw [← hrc]
  exact h3 rc

theorem sum_map_combo {α : Type} (l : List α) (f1 f2 f3 f4 f5 f6 : α → ℚ) :
    (l.map (fun x => f1 x - f2 x - f3 x - f4 x + f5 x + f6 x)).sum =
      (l.map f1).sum - (l.map f2).sum - (l.map f3).sum - (l.map f4).sum +
        (l.map f5).sum + (l.map f6).sum := by
  induction l with
  | nil => simp
  | cons x xs ih => simp [ih]; ring

/-- C2 (amended): with unique registry codes, every filtered journal line
registered, every reference code's filtered lines balancing exactly, signed
beginning balances summing to zero, the class-digit conventions of the
registry, and no class-1/2 account falling inside the materiality window
`0 < |balance| <= 0.01`, the balance sheet built from the `GJ`+`AJ` balances
satisfies `assets = liabilities + equity` exactly. -/
theorem C2_balance_sheet_identity
    (accounts : List Account) (entries : List JournalEntry) (d : ℤ)
    (h1 : (accounts.map (·.account_code)).Nodup)
    (h2 : ∀ e ∈ entries, dateOk (some d) e = true → typeOk (some ["GJ", "AJ"]) e = true →
      ∃ a ∈ accounts, a.account_code = e.account_code)
    (h3 : ∀ rc : String,
      (((entries.filter (fun e => dateOk (some d) e && typeOk (some ["GJ", "AJ"]) e)).filter
        (fun e => e.ref_code == rc)).map (fun e => e.debit - e.credit)).sum = 0)
    (h4 : (accounts.map (fun a =>
      if a.normal_balance == "debit" then a.beginning_balance
      else -a.beginning_balance)).sum = 0)
    (h5 : ∀ a ∈ accounts, strStartsWith a.account_code "1-" = true ∨
      strStartsWith a.account_code "2-" = true ∨ strStartsWith a.account_code "3-" = true ∨
      strStartsWith a.account_code "4-" = true ∨ strStartsWith a.account_code "5-" = true ∨
      strStartsWith a.account_code "6-" = true)
    (h6 : ∀ a ∈ accounts, strStartsWith a.account_code "2-" = true →
      a.normal_balance = "credit")
    (h7 : ∀ a ∈ accounts, strStartsWith a.account_code "3-" = true →
      a.account_code ≠ "3-1100" → a.normal_balance = "credit")
    (h7b : ∀ a ∈ accounts, a.account_code = "3-1100" → a.normal_balance = "debit")
    (h8 : ∀ a ∈ accounts, strStartsWith a.account_code "4-" = true →
      a.normal_balance = "credit")
    (h9 : ∀ a ∈ accounts, (strStartsWith a.account_code "5-" = true ∨
      strStartsWith a.account_code "6-" = true) → a.normal_balance = "debit")
    (h10 : ∀ a ∈ accounts, (strStartsWith a.account_code "1-" = true ∨
      strStartsWith a.account_code "2-" = true) →
      finalBalanceFun accounts entries (some d) (some ["GJ", "AJ"]) a.account_code = 0 ∨
      tolerance < ratAbs
        (finalBalanceFun accounts entries (some d) (some ["GJ", "AJ"]) a.account_code))
    (h11 : ∀ a ∈ accounts, strStartsWith a.account_code "1-" = true →
      a.normal_balance = "debit" ∨ a.normal_balance = "credit") :
    (generate_balance_sheet
        (get_final_balances accounts entries (some d) (some ["GJ", "AJ"]))
        (generate_income_statement
          (get_final_balances accounts entries (some d) (some ["GJ", "AJ"]))).net_income).assets =
      (generate_balance_sheet
        (get_final_balances accounts entries (some d) (some ["GJ", "AJ"]))
        (generate_income_statement
          (get_final_balances accounts entries (some d) (some ["GJ", "AJ"]))).net_income).liabilities +
      (generate_balance_sheet
        (get_final_balances accounts entries (some d) (some ["GJ", "AJ"]))
        (generate_income_statement
          (get_final_balances accounts entries (some d) (some ["GJ", "AJ"]))).net_income).equity := by
  classical
  set fbal := finalBalanceFun accounts entries (some d) (some ["GJ", "AJ"]) with hfbaldef
  set fb := get_final_balances accounts entries (some d) (some ["GJ", "AJ"]) with hfbdef
  -- the global double-entry zero
  have hGlobalZero :
      (accounts.map (fun a => signedBalance a (fbal a.account_code))).sum = 0 := by
    rw [hfbaldef]
    exact sum_signedBalance_zero accounts entries (some d) (some ["GJ", "AJ"]) h1 h2 h3 h4
  -- read each statement total as a sum over all registered accounts
  have hassets : (generate_balance_sheet fb
      (generate_income_statement fb).net_income).assets = (fb.map assetVal).sum := by
    simp only [generate_balance_sheet]
    rw [foldl_signed_sum, zero_add, sum_filter_eq_sum_ite]
    rfl
  have hliab : (generate_balance_sheet fb
      (generate_income_statement fb).net_income).liabilities = (fb.map liabilityVal).sum := by
    simp only [generate_balance_sheet]
    rw [sum_filter_eq_sum_ite]
    rfl
  have hequity : (generate_balance_sheet fb
      (generate_income_statement fb).net_income).equity =
      (fb.map initialEquityVal).sum +
        ((fb.map revenueVal).sum - (fb.map expenseVal).sum) -
        (fb.map drawingsVal).sum := by
    simp only [generate_balance_sheet, generate_income_statement]
    rw [sum_filter_eq_sum_ite, sum_filter_eq_sum_ite, sum_filter_eq_sum_ite,
      sum_filter_eq_sum_ite]
    rfl
  -- push each row sum to a sum over the registry
  have hk_false : ∀ a ∈ accounts,
      keepRow a.account_code (fbal a.account_code) = false →
      ¬ (tolerance < ratAbs (fbal a.account_code)) ∧
      strStartsWith a.account_code "3-" = false ∧
      strStartsWith a.account_code "4-" = false ∧
      strStartsWith a.account_code "5-" = false ∧
      strStartsWith a.account_code "6-" = false := by
    intro a _ hk
    simp only [keepRow, Bool.or_eq_false_iff, decide_eq_false_iff_not] at hk
    exact ⟨hk.1.1.1.1, hk.1.1.1.2, hk.1.1.2, hk.1.2, hk.2⟩
  have hassets2 : (fb.map assetVal).sum =
      (accounts.map (fun a => assetVal ⟨a.account_code, a.account_name,
        a.normal_balance, fbal a.account_code⟩)).sum := by
    rw [hfbdef, hfbaldef]
    apply sum_over_final_balances accounts entries _ _ h1
    intro a ha hk
    rw [← hfbaldef] at hk ⊢
    obtain ⟨htol, _, _, _, _⟩ := hk_false a ha hk
    by_cases hstart : strStartsWith a.account_code "1-" = true
    · rcases h10 a ha (Or.inl hstart) with hz | htol'
      · simp only [assetVal, hstart, if_true]
        rw [hz]
        split_ifs <;> simp
      · exact absurd htol' htol
    · simp [assetVal, hstart]
  have hliab2 : (fb.map liabilityVal).sum =
      (accounts.map (fun a => liabilityVal ⟨a.account_code, a.account_name,
        a.normal_balance, fbal a.account_code⟩)).sum := by
    rw [hfbdef, hfbaldef]
    apply sum_over_final_balances accounts entries _ _ h1
    intro a ha hk
    rw [← hfbaldef] at hk ⊢
    obtain ⟨htol, _, _, _, _⟩ := hk_false a ha hk
    by_cases hstart : strStartsWith a.account_code "2-" = true
    · rcases h10 a ha (Or.inr hstart) with hz | htol'
      · simp [liabilityVal, hstart, hz]
      · exact absurd htol' htol
    · simp [liabilityVal, hstart]
  have hIE2 : (fb.map initialEquityVal).sum =
      (accounts.map (fun a => initialEquityVal ⟨a.account_code, a.account_name,
        a.normal_balance, fbal a.account_code⟩)).sum := by
    rw [hfbdef, hfbaldef]
    apply sum_over_final_balances accounts entries _ _ h1
    intro a ha hk
    rw [← hfbaldef] at hk ⊢
    obtain ⟨_, h3f, _, _, _⟩ := hk_false a ha hk
    simp [initialEquityVal, h3f]
  have hdraw2 : (fb.map drawingsVal).sum =
      (accounts.map (fun a => drawingsVal ⟨a.account_code, a.account_name,
        a.normal_balance, fbal a.account_code⟩)).sum := by
    rw [hfbdef, hfbaldef]
    apply sum_over_final_balances accounts entries _ _ h1
    intro a ha hk
    rw [← hfbaldef] at hk ⊢
    obtain ⟨_, h3f, _, _, _⟩ := hk_false a ha hk
    have hne : (a.account_code == "3-1100") = false := by
      cases hq : a.account_code == "3-1100" with
      | false => rfl
      | true =>
        have hc : a.account_code = "3-1100" := by simpa using hq
        have : strStartsWith a.account_code "3-" = true := by
          rw [hc]; decide
        rw [this] at h3f
        cases h3f
    simp [drawingsVal, hne]
  have hrev2 : (fb.map revenueVal).sum =
      (accounts.map (fun a => revenueVal ⟨a.account_code, a.account_name,
        a.normal_balance, fbal a.account_code⟩)).sum := by
    rw [hfbdef, hfbaldef]
    apply sum_over_final_balances accounts entries _ _ h1
    intro a ha hk
    rw [← hfbaldef] at hk ⊢
    obtain ⟨_, _, h4f, _, _⟩ := hk_false a ha hk
    simp [revenueVal, h4f]
  have hexp2 : (fb.map expenseVal).sum =
      (accounts.map (fun a => expenseVal ⟨a.account_code, a.account_name,
        a.normal_balance, fbal a.account_code⟩)).sum := by
    rw [hfbdef, hfbaldef]
    apply sum_over_final_balances accounts entries _ _ h1
    intro a ha hk
    rw [← hfbaldef] at hk ⊢
    obtain ⟨_, _, _, h5f, h6f⟩ := hk_false a ha hk
    simp [expenseVal, h5f, h6f]
  -- the per-account combination equals the debit-positive balance
  have hcombo : ∀ a ∈ accounts,
      assetVal ⟨a.account_code, a.account_name, a.normal_balance, fbal a.account_code⟩ -
        liabilityVal ⟨a.account_code, a.account_name, a.normal_balance, fbal a.account_code⟩ -
        initialEquityVal ⟨a.account_code, a.account_name, a.normal_balance, fbal a.account_code⟩ -
        revenueVal ⟨a.account_code, a.account_name, a.normal_balance, fbal a.account_code⟩ +
        expenseVal ⟨a.account_code, a.account_name, a.normal_balance, fbal a.account_code⟩ +
        drawingsVal ⟨a.account_code, a.account_name, a.normal_balance, fbal a.account_code⟩ =
      signedBalance a (fbal a.account_code) := by
    intro a ha
    exact combo_eq_signedBalance a (fbal a.account_code) (h5 a ha) (h6 a ha) (h7 a ha)
      (h7b a ha) (h8 a ha) (h9 a ha) (h11 a ha)
  have hsplit := sum_map_combo accounts
    (fun a => assetVal ⟨a.account_code, a.account_name, a.normal_balance, fbal a.account_code⟩)
    (fun a => liabilityVal ⟨a.account_code, a.account_name, a.normal_balance, fbal a.account_code⟩)
    (fun a => initialEquityVal ⟨a.account_code, a.account_name, a.normal_balance, fbal a.account_code⟩)
    (fun a => revenueVal ⟨a.account_code, a.account_name, a.normal_balance, fbal a.account_code⟩)
    (fun a => expenseVal ⟨a.account_code, a.account_name, a.normal_balance, fbal a.account_code⟩)
    (fun a => drawingsVal ⟨a.account_code, a.account_name, a.normal_balance, fbal a.account_code⟩)
  rw [List.map_congr_left hcombo, hGlobalZero] at hsplit
  rw [hassets, hliab, hequity, hassets2, hliab2, hIE2, hdraw2, hrev2, hexp2]
  linarith

/-- Counterexample to C2 as stated: both reference codes balance within the
0.01 tolerance and the beginning balances balance, yet the per-reference
rounding drift accumulates and the balance sheet misses the identity by 0.018,
beyond the 0.01 tolerance. -/
theorem C2_counterexample_tolerance_drift :
    ratAbs (((c2entries.filter (fun e => e.ref_code == "R1")).map
      (fun e => e.debit - e.credit)).sum) ≤ tolerance ∧
    ratAbs (((c2entries.filter (fun e => e.ref_code == "R2")).map
      (fun e => e.debit - e.credit)).sum) ≤ tolerance ∧
    c2entries.map (·.ref_code) = ["R1", "R1", "R2", "R2"] ∧
    (demoAccounts.map (fun a =>
      if a.normal_balance == "debit" then a.beginning_balance
      else -a.beginning_balance)).sum = 0 ∧
    tolerance < ratAbs (c2sheet.assets - (c2sheet.liabilities + c2sheet.equity)) := by
  refine ⟨?_, ?_, by decide, ?_, ?_⟩
  · simp [c2entries, List.filter, ratAbs, tolerance]
    norm_num
  · simp [c2entries, List.filter, ratAbs, tolerance]
    norm_num
  · simp [demoAccounts]
  · have hbal : c2balances =
        [⟨"1-1000", "Kas", "debit", 2018/1000⟩,
         ⟨"3-1000", "Modal", "credit", 0⟩,
         ⟨"3-1100", "Prive", "debit", 0⟩,
         ⟨"4-1000", "Penjualan", "credit", 2⟩,
         ⟨"5-1000", "Harga Pokok Penjualan", "debit", 0⟩] := by
      simp [c2balances, get_final_balances, demoAccounts, c2entries, dedupKeys,
        dedupKeysAux, lastAccount, lookupAccount, applyEntries, dateOk, typeOk,
        keepRow, entryDelta, strStartsWith, ratAbs, tolerance, List.isPrefixOf,
        List.foldl, List.filter, List.filterMap, List.find?]
      norm_num
    simp [c2sheet, hbal, generate_balance_sheet, generate_income_statement,
      strStartsWith, List.isPrefixOf, List.filter, List.foldl, ratAbs, tolerance]
    norm_num

/-- Witness for the amended C2 at the demo registry with one exactly balanced
sale. -/
theorem C2_balance_sheet_identity_witness :
    (generate_balance_sheet
        (get_final_balances demoAccounts demoSaleEntries (some 10) (some ["GJ", "AJ"]))
        (generate_income_statement
          (get_final_balances demoAccounts demoSaleEntries (some 10)
            (some ["GJ", "AJ"]))).net_income).assets =
      (generate_balance_sheet
        (get_final_balances demoAccounts demoSaleEntries (some 10) (some ["GJ", "AJ"]))
        (generate_income_statement
          (get_final_balances demoAccounts demoSaleEntries (some 10)
            (some ["GJ", "AJ"]))).net_income).liabilities +
      (generate_balance_sheet
        (get_final_balances demoAccounts demoSaleEntries (some 10) (some ["GJ", "AJ"]))
        (generate_income_statement
          (get_final_balances demoAccounts demoSaleEntries (some 10)
            (some ["GJ", "AJ"]))).net_income).equity := by
  apply C2_balance_sheet_identity demoAccounts demoSaleEntries 10
  · decide
  · intro e he hd ht
    simp only [demoSaleEntries, List.mem_cons, List.not_mem_nil, or_false] at he
    rcases he with rfl | rfl
    · exact ⟨⟨"1-1000", "Kas", "aset", "debit", 0⟩, by decide, rfl⟩
    · exact ⟨⟨"4-1000", "Penjualan", "pendapatan", "credit", 0⟩, by decide, rfl⟩
  · intro rc
    by_cases hrc : rc = "GB001"
    · subst hrc
      simp [demoSaleEntries, dateOk, typeOk, List.filter]
    · have hne : (("GB001" : String) == rc) = false := by
        simp only [beq_eq_false_iff_ne, ne_eq]
        exact fun h => hrc h.symm
      simp [demoSaleEntries, dateOk, typeOk, List.filter, hne]
  · simp [demoAccounts]
  · decide
  · decide
  · decide
  · decide
  · decide
  · decide
  · intro a ha hcls
    simp only [demoAccounts, List.mem_cons, List.not_mem_nil, or_false] at ha
    rcases ha with rfl | rfl | rfl | rfl | rfl | rfl | rfl
    · right
      simp [finalBalanceFun, applyEntries, lastAccount, lookupAccount,
        demoAccounts, demoSaleEntries, dateOk, typeOk, entryDelta, List.filter,
        List.foldl, List.find?]
      norm_num [ratAbs, tolerance]
    · left
      simp [finalBalanceFun, applyEntries, lastAccount, lookupAccount,
        demoAccounts, demoSaleEntries, dateOk, typeOk, entryDelta, List.filter,
        List.foldl, List.find?]
    · left
      simp [finalBalanceFun, applyEntries, lastAccount, lookupAccount,
        demoAccounts, demoSaleEntries, dateOk, typeOk, entryDelta, List.filter,
        List.foldl, List.find?]
    · exact absurd hcls (by decide)
    · exact absurd hcls (by decide)
    · exact absurd hcls (by decide)
    · exact absurd hcls (by decide)
  · decide

/-- Looking up a key in the reversed image of a key-respecting `filterMap` over
a duplicate-free key list reproduces the function value at that key. -/
theorem reverse_find?_filterMap {β : Type} (key : β → String) (f : String → Option β)
    (hf : ∀ c r, f c = some r → key r = c) :
    ∀ (codes : List String), codes.Nodup → ∀ c ∈ codes,
      (codes.filterMap f).reverse.find? (fun r => key r == c) = f c := by
  intro codes
  induction codes with
  | nil => intro _ c hc; cases hc
  | cons k rest ih =>
    intro hnd c hc
    have hnd' := List.nodup_cons.mp hnd
    have hrest_none : ∀ c', c' ∉ rest →
        (rest.filterMap f).reverse.find? (fun r => key r == c') = none := by
      intro c' hc'
      apply List.find?_eq_none.mpr
      intro r hr
      have hr' := List.mem_reverse.mp hr
      obtain ⟨c2, hc2, hfc2⟩ := List.mem_filterMap.mp hr'
      have hk := hf c2 r hfc2
      simp only [beq_eq_false_iff_ne, ne_eq, beq_iff_eq]
      intro he
      exact hc' (he ▸ hk ▸ hc2)
    cases hfk : f k with
    | none =>
      simp only [List.filterMap_cons, hfk]
      rcases List.mem_cons.mp hc with rfl | hcr
      · rw [hrest_none c hnd'.1, hfk]
      · exact ih hnd'.2 c hcr
    | some r =>
      simp only [List.filterMap_cons, hfk, List.reverse_cons, List.find?_append]
      rcases List.mem_cons.mp hc with rfl | hcr
      · rw [hrest_none c hnd'.1]
        have hkr := hf _ r hfk
        simp [hkr, hfk]
      · have hck : c ≠ k := fun he => hnd'.1 (he ▸ hcr)
        have hik := ih hnd'.2 c hcr
        rw [hik]
        cases hfc : f c with
        | none =>
          have hkr := hf k r hfk
          have hkc : ¬ k = c := fun h => hck h.symm
          simp [hkr, hkc]
        | some r2 => simp

/-- For a registered code, the Python `dict.get(code, 0)` over the aggregator's
rows returns the running balance when the materiality test keeps the row, and
`0` otherwise. -/
theorem balanceMapGet_final_balances (accounts : List Account)
    (entries : List JournalEntry) (end_date : Option ℤ)
    (journal_types : Option (List String))
    (h1 : (accounts.map (·.account_code)).Nodup) (a : Account) (ha : a ∈ accounts) :
    balanceMapGet (get_final_balances accounts entries end_date journal_types)
        a.account_code =
      (if keepRow a.account_code
          (finalBalanceFun accounts entries end_date journal_types a.account_code) then
        finalBalanceFun accounts entries end_date journal_types a.account_code
       else 0) := by
  unfold balanceMapGet
  rw [get_final_balances_eq_filterMap, dedupKeys_eq_self h1]
  have hfind := reverse_find?_filterMap (fun (r : BalanceRow) => r.account_code)
    (fun code =>
      (match lastAccount accounts code with
      | none => none
      | some b =>
        if keepRow code (finalBalanceFun accounts entries end_date journal_types code) then
          some ⟨code, b.account_name, b.normal_balance,
            finalBalanceFun accounts entries end_date journal_types code⟩
        else none : Option BalanceRow))
    (by
      intro c r hr
      dsimp only at hr
      cases hl : lastAccount accounts c with
      | none =>
        simp only [hl] at hr
        exact Option.noConfusion hr
      | some b =>
        simp only [hl] at hr
        by_cases hk : keepRow c
            (finalBalanceFun accounts entries end_date journal_types c) = true
        · rw [if_pos hk] at hr
          injection hr with hr'
          rw [← hr']
        · rw [if_neg hk] at hr
          cases hr)
    (accounts.map (·.account_code)) h1 a.account_code
    (List.mem_map_of_mem (·.account_code) ha)
  rw [hfind]
  dsimp only
  rw [lastAccount_self accounts h1 a ha]
  by_cases hk : keepRow a.account_code
      (finalBalanceFun accounts entries end_date journal_types a.account_code) = true
  · simp [hk]
  · simp [hk]

/-- The difference of the two columns produced by the normal-balance split is
the debit-positive signed balance. -/
theorem splitByNormal_sub (nb : String) (v : ℚ) :
    (splitByNormal nb v).1 - (splitByNormal nb v).2 =
      (if nb == "debit" then v else -v) := by
  unfold splitByNormal
  by_cases hnb : (nb == "debit") = true
  · simp only [hnb, if_true]
    rcases lt_trichotomy v 0 with h | h | h
    · simp [not_lt.mpr (le_of_lt h), h, ratAbs]
    · simp [h]
    · simp [h, not_lt.mpr (le_of_lt h), asymm h]
  · simp only [hnb, Bool.false_eq_true, if_false]
    rcases lt_trichotomy v 0 with h | h | h
    · simp [not_lt.mpr (le_of_lt h), h, ratAbs]
    · simp [h]
    · simp [h, not_lt.mpr (le_of_lt h), asymm h]

/-- C6 (amended): with unique registry codes, every filtered line registered,
every reference code's general+adjustment lines up to the end date balancing
exactly, signed beginning balances summing to zero, and no account's
general+adjustment balance falling inside the materiality window
`0 < |balance| <= 0.01`, the worksheet's totals-after-balancing row has equal
debit and credit cells in the income-statement pair and in the balance-sheet
pair, exactly. -/
theorem C6_worksheet_totals_after_balancing
    (accounts : List Account) (entries : List JournalEntry) (d : ℤ)
    (h1 : (accounts.map (·.account_code)).Nodup)
    (h2 : ∀ e ∈ entries, dateOk (some d) e = true → typeOk (some ["GJ", "AJ"]) e = true →
      ∃ a ∈ accounts, a.account_code = e.account_code)
    (h3 : ∀ rc : String,
      (((entries.filter (fun e => dateOk (some d) e && typeOk (some ["GJ", "AJ"]) e)).filter
        (fun e => e.ref_code == rc)).map (fun e => e.debit - e.credit)).sum = 0)
    (h4 : (accounts.map (fun a =>
      if a.normal_balance == "debit" then a.beginning_balance
      else -a.beginning_balance)).sum = 0)
    (h10 : ∀ a ∈ accounts,
      finalBalanceFun accounts entries (some d) (some ["GJ", "AJ"]) a.account_code = 0 ∨
      tolerance < ratAbs
        (finalBalanceFun accounts entries (some d) (some ["GJ", "AJ"]) a.account_code)) :
    (akuntan_worksheet_final accounts entries d).lr_debet =
      (akuntan_worksheet_final accounts entries d).lr_kredit ∧
    (akuntan_worksheet_final accounts entries d).neraca_debet =
      (akuntan_worksheet_final accounts entries d).neraca_kredit := by
  classical
  have hpoint : ∀ a ∈ accounts,
      (worksheetRowOf accounts entries d a).elim 0 (fun r => r.nsa_debet - r.nsa_kredit) =
      signedBalance a
        (finalBalanceFun accounts entries (some d) (some ["GJ", "AJ"]) a.account_code) := by
    intro a ha
    have hmap := balanceMapGet_final_balances accounts entries (some d)
      (some ["GJ", "AJ"]) h1 a ha
    simp only [worksheetRowOf]
    rcases h10 a ha with hz | htol
    · rw [hmap, hz, ite_self]
      have hz0 : decide (tolerance < ratAbs (0 : ℚ)) = false := by
        norm_num [ratAbs, tolerance]
      rw [hz0, Bool.false_or]
      by_cases hrest : (decide (0 < adj_debit_map entries d a.account_code) ||
          decide (0 < adj_kredit_map entries d a.account_code) ||
          decide (tolerance < ratAbs (balanceMapGet
            (get_final_balances accounts entries (some d) (some ["GJ"]))
            a.account_code))) = true
      · simp only [hrest, if_true, Option.elim]
        rw [splitByNormal_sub]
        simp [signedBalance]
      · simp only [Bool.not_eq_true] at hrest
        simp only [hrest, Bool.false_eq_true, if_false, Option.elim]
        simp [signedBalance]
    · have hkeep : keepRow a.account_code
          (finalBalanceFun accounts entries (some d) (some ["GJ", "AJ"]) a.account_code) =
          true := by
        simp [keepRow, htol]
      rw [hmap, if_pos hkeep]
      have hcond : decide (tolerance < ratAbs
          (finalBalanceFun accounts entries (some d) (some ["GJ", "AJ"]) a.account_code)) =
          true := by simpa using htol
      rw [hcond]
      simp only [Bool.true_or, if_true, Option.elim]
      rw [splitByNormal_sub]
      simp [signedBalance]
  have hLRsplit : ∀ r ∈ akuntan_worksheet_rows accounts entries d,
      r.lr_debet + r.neraca_debet = r.nsa_debet ∧
      r.lr_kredit + r.neraca_kredit = r.nsa_kredit := by
    intro r hr
    obtain ⟨a, _, hfa⟩ := List.mem_filterMap.mp hr
    simp only [worksheetRowOf] at hfa
    split at hfa
    · injection hfa with hfa'
      rw [← hfa']
      by_cases hIS : (strStartsWith a.account_code "4-" ||
          strStartsWith a.account_code "5-" || strStartsWith a.account_code "6-") = true
      · simp [hIS]
      · simp only [Bool.not_eq_true] at hIS
        simp [hIS]
    · exact Option.noConfusion hfa
  have hnsa_zero : ((akuntan_worksheet_rows accounts entries d).map
      (fun r => r.nsa_debet - r.nsa_kredit)).sum = 0 := by
    unfold akuntan_worksheet_rows
    rw [sum_filterMap, List.map_congr_left hpoint]
    exact sum_signedBalance_zero accounts entries (some d) (some ["GJ", "AJ"]) h1 h2 h3 h4
  have hdiff : ((akuntan_worksheet_rows accounts entries d).map (·.nsa_debet)).sum -
      ((akuntan_worksheet_rows accounts entries d).map (·.nsa_kredit)).sum = 0 := by
    rw [← sum_map_sub]
    exact hnsa_zero
  have hsplitD : ((akuntan_worksheet_rows accounts entries d).map (·.nsa_debet)).sum =
      ((akuntan_worksheet_rows accounts entries d).map (·.lr_debet)).sum +
      ((akuntan_worksheet_rows accounts entries d).map (·.neraca_debet)).sum := by
    rw [← sum_map_add]
    exact congrArg List.sum
      (List.map_congr_left (fun r hr => ((hLRsplit r hr).1).symm))
  have hsplitK : ((akuntan_worksheet_rows accounts entries d).map (·.nsa_kredit)).sum =
      ((akuntan_worksheet_rows accounts entries d).map (·.lr_kredit)).sum +
      ((akuntan_worksheet_rows accounts entries d).map (·.neraca_kredit)).sum := by
    rw [← sum_map_add]
    exact congrArg List.sum
      (List.map_congr_left (fun r hr => ((hLRsplit r hr).2).symm))
  simp only [akuntan_worksheet_final]
  set D := ((akuntan_worksheet_rows accounts entries d).map (·.lr_debet)).sum with hD
  set K := ((akuntan_worksheet_rows accounts entries d).map (·.lr_kredit)).sum with hK
  set ND := ((akuntan_worksheet_rows accounts entries d).map (·.neraca_debet)).sum with hND
  set NK := ((akuntan_worksheet_rows accounts entries d).map (·.neraca_kredit)).sum with hNK
  have hkey : (D + ND) - (K + NK) = 0 := by
    rw [← hsplitD, ← hsplitK] at *
    linarith [hdiff]
  constructor
  · by_cases h : 0 ≤ K - D
    · have h' : ¬ (K - D < 0) := not_lt.mpr h
      simp [h, h']
    · have h' : K - D < 0 := not_le.mp h
      simp only [h, if_false, h', if_true, ratAbs]
      simp [h']
  · by_cases h : 0 ≤ K - D
    · have h' : ¬ (K - D < 0) := not_lt.mpr h
      simp [h, h']
      linarith [hkey]
    · have h' : K - D < 0 := not_le.mp h
      simp only [h, if_false, h', if_true, ratAbs]
      simp [h']
      linarith [hkey]

/-- Witness for the amended C6 at the demo registry with one balanced sale. -/
theorem C6_worksheet_totals_after_balancing_witness :
    (akuntan_worksheet_final demoAccounts demoSaleEntries 10).lr_debet =
      (akuntan_worksheet_final demoAccounts demoSaleEntries 10).lr_kredit ∧
    (akuntan_worksheet_final demoAccounts demoSaleEntries 10).neraca_debet =
      (akuntan_worksheet_final demoAccounts demoSaleEntries 10).neraca_kredit := by
  apply C6_worksheet_totals_after_balancing demoAccounts demoSaleEntries 10
  · decide
  · intro e he hd ht
    simp only [demoSaleEntries, List.mem_cons, List.not_mem_nil, or_false] at he
    rcases he with rfl | rfl
    · exact ⟨⟨"1-1000", "Kas", "aset", "debit", 0⟩, by decide, rfl⟩
    · exact ⟨⟨"4-1000", "Penjualan", "pendapatan", "credit", 0⟩, by decide, rfl⟩
  · intro rc
    by_cases hrc : rc = "GB001"
    · subst hrc
      simp [demoSaleEntries, dateOk, typeOk, List.filter]
    · have hne : (("GB001" : String) == rc) = false := by
        simp only [beq_eq_false_iff_ne, ne_eq]
        exact fun h => hrc h.symm
      simp [demoSaleEntries, dateOk, typeOk, List.filter, hne]
  · simp [demoAccounts]
  · intro a ha
    simp only [demoAccounts, List.mem_cons, List.not_mem_nil, or_false] at ha
    rcases ha with rfl | rfl | rfl | rfl | rfl | rfl | rfl
    · right
      simp [finalBalanceFun, applyEntries, lastAccount, lookupAccount,
        demoAccounts, demoSaleEntries, dateOk, typeOk, entryDelta, List.filter,
        List.foldl, List.find?]
      norm_num [ratAbs, tolerance]
    · left
      simp [finalBalanceFun, applyEntries, lastAccount, lookupAccount,
        demoAccounts, demoSaleEntries, dateOk, typeOk, entryDelta, List.filter,
        List.foldl, List.find?]
    · left
      simp [finalBalanceFun, applyEntries, lastAccount, lookupAccount,
        demoAccounts, demoSaleEntries, dateOk, typeOk, entryDelta, List.filter,
        List.foldl, List.find?]
    · left
      simp [finalBalanceFun, applyEntries, lastAccount, lookupAccount,
        demoAccounts, demoSaleEntries, dateOk, typeOk, entryDelta, List.filter,
        List.foldl, List.find?]
    · left
      simp [finalBalanceFun, applyEntries, lastAccount, lookupAccount,
        demoAccounts, demoSaleEntries, dateOk, typeOk, entryDelta, List.filter,
        List.foldl, List.find?]
    · right
      simp [finalBalanceFun, applyEntries, lastAccount, lookupAccount,
        demoAccounts, demoSaleEntries, dateOk, typeOk, entryDelta, List.filter,
        List.foldl, List.find?]
      norm_num [ratAbs, tolerance]
    · left
      simp [finalBalanceFun, applyEntries, lastAccount, lookupAccount,
        demoAccounts, demoSaleEntries, dateOk, typeOk, entryDelta, List.filter,
        List.foldl, List.find?]

/-- Counterexample to C6 as stated: every reference code balances exactly, and
the beginning balances balance, but the three `0.005` asset balances are
swallowed by the aggregator's materiality filter while the `0.015` revenue
balance survives; the final balance-sheet column pair is off by `0.015`,
beyond the `0.01` tolerance. -/
theorem C6_counterexample_materiality_drop :
    (((c6entries.filter (fun e => e.ref_code == "R1")).map
      (fun e => e.debit - e.credit)).sum = 0) ∧
    (((c6entries.filter (fun e => e.ref_code == "R2")).map
      (fun e => e.debit - e.credit)).sum = 0) ∧
    (((c6entries.filter (fun e => e.ref_code == "R3")).map
      (fun e => e.debit - e.credit)).sum = 0) ∧
    c6entries.map (·.ref_code) = ["R1", "R1", "R2", "R2", "R3", "R3"] ∧
    (c6accounts.map (fun a =>
      if a.normal_balance == "debit" then a.beginning_balance
      else -a.beginning_balance)).sum = 0 ∧
    tolerance < ratAbs ((akuntan_worksheet_final c6accounts c6entries 10).neraca_debet -
      (akuntan_worksheet_final c6accounts c6entries 10).neraca_kredit) := by
  refine ⟨?_, ?_, ?_, by decide, ?_, ?_⟩
  · simp [c6entries, List.filter]
  · simp [c6entries, List.filter]
  · simp [c6entries, List.filter]
  · simp [c6accounts]
  · have hgj : get_final_balances c6accounts c6entries (some 10) (some ["GJ"]) =
        [⟨"4-1000", "Penjualan", "credit", 15/1000⟩] := by
      simp [get_final_balances, c6accounts, c6entries, dedupKeys, dedupKeysAux,
        lastAccount, lookupAccount, applyEntries, dateOk, typeOk, keepRow,
        entryDelta, strStartsWith, ratAbs, tolerance, List.isPrefixOf,
        List.foldl, List.filter, List.filterMap, List.find?]
      norm_num
    have hgjaj : get_final_balances c6accounts c6entries (some 10) (some ["GJ", "AJ"]) =
        [⟨"4-1000", "Penjualan", "credit", 15/1000⟩] := by
      simp [get_final_balances, c6accounts, c6entries, dedupKeys, dedupKeysAux,
        lastAccount, lookupAccount, applyEntries, dateOk, typeOk, keepRow,
        entryDelta, strStartsWith, ratAbs, tolerance, List.isPrefixOf,
        List.foldl, List.filter, List.filterMap, List.find?]
      norm_num
    have hr1 : worksheetRowOf c6accounts c6entries 10
        ⟨"1-1001", "Kas Kecil A", "aset", "debit", 0⟩ = none := by
      simp only [worksheetRowOf, hgj, hgjaj]
      simp [balanceMapGet, adj_debit_map, adj_kredit_map, splitByNormal,
        dateOk, typeOk, strStartsWith, ratAbs, tolerance, List.isPrefixOf,
        List.filter, List.find?, c6entries]
    have hr2 : worksheetRowOf c6accounts c6entries 10
        ⟨"1-1002", "Kas Kecil B", "aset", "debit", 0⟩ = none := by
      simp only [worksheetRowOf, hgj, hgjaj]
      simp [balanceMapGet, adj_debit_map, adj_kredit_map, splitByNormal,
        dateOk, typeOk, strStartsWith, ratAbs, tolerance, List.isPrefixOf,
        List.filter, List.find?, c6entries]
    have hr3 : worksheetRowOf c6accounts c6entries 10
        ⟨"1-1003", "Kas Kecil C", "aset", "debit", 0⟩ = none := by
      simp only [worksheetRowOf, hgj, hgjaj]
      simp [balanceMapGet, adj_debit_map, adj_kredit_map, splitByNormal,
        dateOk, typeOk, strStartsWith, ratAbs, tolerance, List.isPrefixOf,
        List.filter, List.find?, c6entries]
    have hr4 : worksheetRowOf c6accounts c6entries 10
        ⟨"4-1000", "Penjualan", "pendapatan", "credit", 0⟩ =
        some ⟨"4-1000", "Penjualan", "credit", 0, 15/1000, 0, 0, 0, 15/1000,
          0, 15/1000, 0, 0⟩ := by
      simp only [worksheetRowOf, hgj, hgjaj]
      simp [balanceMapGet, adj_debit_map, adj_kredit_map, splitByNormal,
        dateOk, typeOk, strStartsWith, ratAbs, tolerance, List.isPrefixOf,
        List.filter, List.find?, c6entries]
      norm_num
    have hfm : ∀ (f : Account → Option WorksheetRow) (R : WorksheetRow),
        f ⟨"1-1001", "Kas Kecil A", "aset", "debit", 0⟩ = none →
        f ⟨"1-1002", "Kas Kecil B", "aset", "debit", 0⟩ = none →
        f ⟨"1-1003", "Kas Kecil C", "aset", "debit", 0⟩ = none →
        f ⟨"4-1000", "Penjualan", "pendapatan", "credit", 0⟩ = some R →
        ([⟨"1-1001", "Kas Kecil A", "aset", "debit", 0⟩,
          ⟨"1-1002", "Kas Kecil B", "aset", "debit", 0⟩,
          ⟨"1-1003", "Kas Kecil C", "aset", "debit", 0⟩,
          ⟨"4-1000", "Penjualan", "pendapatan", "credit", 0⟩] : List Account).filterMap f =
          [R] := by
      intro f R e1 e2 e3 e4
      simp [List.filterMap_cons, e1, e2, e3, e4]
    have hrows : akuntan_worksheet_rows c6accounts c6entries 10 =
        [⟨"4-1000", "Penjualan", "credit", 0, 15/1000, 0, 0, 0, 15/1000,
          0, 15/1000, 0, 0⟩] :=
      hfm (worksheetRowOf c6accounts c6entries 10) _ hr1 hr2 hr3 hr4
    simp [akuntan_worksheet_final, hrows, ratAbs, tolerance]
    norm_num

theorem aggregate_amountsTotal (agg : List (String × String × ℚ)) (code name : String)
    (amt : ℚ) (h : (agg.map (·.1)).Nodup) :
    amountsTotal (aggregate agg code name amt) = amountsTotal agg + amt := by
  induction agg with
  | nil => simp [aggregate, amountsTotal]
  | cons p rest ih =>
    simp only [List.map_cons, List.nodup_cons] at h
    by_cases hp : (p.1 == code) = true
    · have hpc : p.1 = code := by simpa using hp
      have hnone : ∀ q ∈ rest, (q.1 == code) = false := by
        intro q hq
        simp only [beq_eq_false_iff_ne, ne_eq]
        intro he
        exact h.1 (hpc ▸ he ▸ List.mem_map_of_mem (·.1) hq)
      have hany : (p :: rest).any (fun q => q.1 == code) = true := by
        simp [List.any_cons, hp]
      have hrest : rest.map
          (fun q => if q.1 == code then (q.1, q.2.1, q.2.2 + amt) else q) = rest := by
        have hid : ∀ q ∈ rest,
            (if q.1 == code then (q.1, q.2.1, q.2.2 + amt) else q) = q := by
          intro q hq
          simp [hnone q hq]
        rw [List.map_congr_left hid]
        simp
      simp only [aggregate, hany, if_true, List.map_cons, hp, amountsTotal]
      rw [hrest]
      simp [List.map_cons]
      ring
    · by_cases hr : rest.any (fun q => q.1 == code) = true
      · have hany : (p :: rest).any (fun q => q.1 == code) = true := by
          simp [List.any_cons, hr]
        have hih := ih h.2
        simp only [aggregate, hany, if_true, List.map_cons, hp, Bool.false_eq_true,
          if_false, amountsTotal, List.map_cons, List.sum_cons] at *
        simp only [aggregate, hr, if_true] at hih
        rw [hih]
        ring
      · have hany : (p :: rest).any (fun q => q.1 == code) = false := by
          simp only [List.any_cons, Bool.or_eq_false_iff]
          exact ⟨Bool.eq_false_iff.mpr hp, Bool.eq_false_iff.mpr hr⟩
        simp only [aggregate, hany, Bool.false_eq_true, if_false, amountsTotal]
        simp
        ring

theorem aggregate_keys_nodup (agg : List (String × String × ℚ)) (code name : String)
    (amt : ℚ) (h : (agg.map (·.1)).Nodup) :
    ((aggregate agg code name amt).map (·.1)).Nodup := by
  unfold aggregate
  by_cases hany : agg.any (fun p => p.1 == code) = true
  · simp only [hany, if_true]
    have : (agg.map (fun p => if p.1 == code then (p.1, p.2.1, p.2.2 + amt) else p)).map
        (·.1) = agg.map (·.1) := by
      rw [List.map_map]
      apply List.map_congr_left
      intro p _
      by_cases hp : p.1 = code
      · simp [hp]
      · simp [hp]
    rw [this]
    exact h
  · simp only [hany, Bool.false_eq_true, if_false, List.map_append, List.map_cons,
      List.map_nil]
    rw [List.nodup_append]
    refine ⟨h, by simp, ?_⟩
    intro x hx
    simp only [List.mem_cons, List.not_mem_nil, or_false]
    intro he
    subst he
    obtain ⟨p, hp, hpc⟩ := List.mem_map.mp hx
    exact hany (List.any_eq_true.mpr ⟨p, hp, by simp [hpc]⟩)

theorem classifyPair_netTotal (accounts : List Account) (st : AggState)
    (cash_movement : ℚ) (cp : JournalEntry) (h : StateInv st) :
    netTotal (classifyPair accounts st cash_movement cp) =
      netTotal st + classifiedDelta cp cash_movement := by
  obtain ⟨h1, h2, h3, h4, h5, h6⟩ := h
  unfold classifyPair classifiedDelta
  dsimp only
  split_ifs <;>
    simp only [netTotal, aggregate_amountsTotal _ _ _ _ h1,
      aggregate_amountsTotal _ _ _ _ h2, aggregate_amountsTotal _ _ _ _ h3,
      aggregate_amountsTotal _ _ _ _ h4, aggregate_amountsTotal _ _ _ _ h5,
      aggregate_amountsTotal _ _ _ _ h6] <;> ring

theorem classifyPair_inv (accounts : List Account) (st : AggState)
    (cash_movement : ℚ) (cp : JournalEntry) (h : StateInv st) :
    StateInv (classifyPair accounts st cash_movement cp) := by
  obtain ⟨h1, h2, h3, h4, h5, h6⟩ := h
  unfold classifyPair
  dsimp only
  split_ifs <;>
    exact ⟨by first | exact aggregate_keys_nodup _ _ _ _ h1 | exact h1,
      by first | exact aggregate_keys_nodup _ _ _ _ h2 | exact h2,
      by first | exact aggregate_keys_nodup _ _ _ _ h3 | exact h3,
      by first | exact aggregate_keys_nodup _ _ _ _ h4 | exact h4,
      by first | exact aggregate_keys_nodup _ _ _ _ h5 | exact h5,
      by first | exact aggregate_keys_nodup _ _ _ _ h6 | exact h6⟩

theorem processCashEntry_netTotal (accounts : List Account)
    (others : List JournalEntry) (st : AggState) (e : JournalEntry)
    (h : StateInv st) :
    netTotal (processCashEntry accounts others st e) =
      netTotal st + cashContribution others e := by
  unfold processCashEntry cashContribution
  by_cases htol : ratAbs (movement e) < tolerance
  · simp [htol]
  · simp only [htol, if_false]
    cases hf : findCounterpart others (movement e) with
    | none => simp
    | some cp => simpa using classifyPair_netTotal accounts st (movement e) cp h

theorem processCashEntry_inv (accounts : List Account)
    (others : List JournalEntry) (st : AggState) (e : JournalEntry)
    (h : StateInv st) :
    StateInv (processCashEntry accounts others st e) := by
  unfold processCashEntry
  by_cases htol : ratAbs (movement e) < tolerance
  · simpa [htol] using h
  · simp only [htol, if_false]
    cases hf : findCounterpart others (movement e) with
    | none => exact h
    | some cp => exact classifyPair_inv accounts st (movement e) cp h

theorem foldl_processCashEntry (accounts : List Account)
    (others : List JournalEntry) :
    ∀ (l : List JournalEntry) (st : AggState), StateInv st →
      netTotal (l.foldl (processCashEntry accounts others) st) =
        netTotal st + (l.map (cashContribution others)).sum ∧
      StateInv (l.foldl (processCashEntry accounts others) st) := by
  intro l
  induction l with
  | nil => intro st h; exact ⟨by simp, h⟩
  | cons e rest ih =>
    intro st h
    rw [List.foldl_cons]
    obtain ⟨hsum, hinv⟩ := ih (processCashEntry accounts others st e)
      (processCashEntry_inv accounts others st e h)
    refine ⟨?_, hinv⟩
    rw [hsum, processCashEntry_netTotal accounts others st e h]
    simp [List.sum_cons]
    ring

theorem processGroup_netTotal (accounts : List Account) (st : AggState)
    (group : List JournalEntry) (h : StateInv st) :
    netTotal (processGroup accounts st group) =
      netTotal st + groupContribution group ∧
    StateInv (processGroup accounts st group) := by
  unfold processGroup groupContribution
  dsimp only
  by_cases hc : ((group.filter (fun e => e.account_code == CASH_ACCOUNT_CODE)).isEmpty ||
      (group.filter (fun e => ¬ (e.account_code == CASH_ACCOUNT_CODE))).isEmpty) = true
  · rw [if_pos hc, if_pos hc]
    exact ⟨by ring, h⟩
  · rw [if_neg hc, if_neg hc]
    exact foldl_processCashEntry accounts _ _ st h

theorem sum_map_movement (l : List JournalEntry) :
    (l.map movement).sum = (l.map (·.debit)).sum - (l.map (·.credit)).sum := by
  simpa [movement] using sum_map_sub l (·.debit) (·.credit)

theorem filter_comm_comb {α : Type} (l : List α) (p q : α → Bool) :
    (l.filter p).filter q = l.filter (fun a => p a && q a) := by
  induction l with
  | nil => rfl
  | cons x xs ih =>
    by_cases hp : p x = true
    · by_cases hq : q x = true
      · simp [List.filter_cons, hp, hq, ih]
      · simp [List.filter_cons, hp, hq, ih]
    · simp [List.filter_cons, hp, ih]

theorem sum_movement_date_split (entries : List JournalEntry) (s e : ℤ)
    (hse : s - 1 ≤ e) :
    ((entries.filter (fun x => x.account_code == CASH_ACCOUNT_CODE &&
        decide (x.date ≤ e))).map movement).sum =
    ((entries.filter (fun x => x.account_code == CASH_ACCOUNT_CODE &&
        decide (x.date ≤ s - 1))).map movement).sum +
    ((entries.filter (fun x => x.account_code == CASH_ACCOUNT_CODE &&
        (decide (s ≤ x.date) && decide (x.date ≤ e)))).map movement).sum := by
  induction entries with
  | nil => simp
  | cons x xs ih =>
    rw [List.filter_cons, List.filter_cons, List.filter_cons]
    by_cases hc : (x.account_code == CASH_ACCOUNT_CODE) = true
    · by_cases h1 : x.date ≤ s - 1
      · have h2 : x.date ≤ e := le_trans h1 hse
        have h3 : ¬ s ≤ x.date := by omega
        rw [if_pos (by simp [hc, h2]), if_pos (by simp [hc, h1]),
          if_neg (by simp [h3])]
        simp only [List.map_cons, List.sum_cons, ih]
        ring
      · by_cases h2 : x.date ≤ e
        · have h3 : s ≤ x.date := by omega
          rw [if_pos (by simp [hc, h2]), if_neg (by simp [h1]),
            if_pos (by simp [hc, h2, h3])]
          simp only [List.map_cons, List.sum_cons, ih]
          ring
        · rw [if_neg (by simp [h2]), if_neg (by simp [h1]),
            if_neg (by simp [h2])]
          exact ih
    · have hc' : (x.account_code == CASH_ACCOUNT_CODE) = false :=
        Bool.eq_false_iff.mpr hc
      rw [if_neg (by simp [hc']), if_neg (by simp [hc']), if_neg (by simp [hc'])]
      exact ih

theorem ledger_filter_clean (entries : List JournalEntry) (d : ℤ) :
    entries.filter (fun x => x.account_code == CASH_ACCOUNT_CODE &&
        dateOk (some d) x && typeOk none x) =
    entries.filter (fun x => x.account_code == CASH_ACCOUNT_CODE &&
        decide (x.date ≤ d)) := by
  apply List.filter_congr
  intro x _
  simp [dateOk, typeOk]

theorem ledger_cash_split (accounts : List Account) (entries : List JournalEntry)
    (s e : ℤ) (hse : s - 1 ≤ e) (acc : Account)
    (hacc : lookupAccount accounts CASH_ACCOUNT_CODE = some acc)
    (hnb : acc.normal_balance = "debit") :
    get_ledger_balance accounts entries CASH_ACCOUNT_CODE (some e) none =
      get_ledger_balance accounts entries CASH_ACCOUNT_CODE (some (s - 1)) none +
      ((entries.filter (fun x => x.account_code == CASH_ACCOUNT_CODE &&
          (decide (s ≤ x.date) && decide (x.date ≤ e)))).map movement).sum := by
  unfold get_ledger_balance
  rw [hacc]
  dsimp only
  have hb : (acc.normal_balance == "debit") = true := by rw [hnb]; rfl
  rw [if_pos hb, if_pos hb]
  rw [← sum_map_movement, ← sum_map_movement]
  rw [ledger_filter_clean entries e, ledger_filter_clean entries (s - 1)]
  rw [sum_movement_date_split entries s e hse]
  ring

theorem foldl_processGroup (accounts : List Account)
    (period : List JournalEntry) :
    ∀ (keys : List String) (st : AggState), StateInv st →
      netTotal (keys.foldl
        (fun st k => processGroup accounts st
          (period.filter (fun e => transKey e == k))) st) =
        netTotal st +
          (keys.map (fun k => groupContribution
            (period.filter (fun e => transKey e == k)))).sum := by
  intro keys
  induction keys with
  | nil => intro st _; simp
  | cons k rest ih =>
    intro st h
    rw [List.foldl_cons]
    obtain ⟨hstep, hinv⟩ := processGroup_netTotal accounts st
      (period.filter (fun e => transKey e == k)) h
    rw [ih _ hinv, hstep]
    simp [List.sum_cons]
    ring

theorem net_change_as_netTotal (accounts : List Account)
    (entries : List JournalEntry) (start_date end_date : ℤ) :
    (generate_cash_flow_statement accounts entries start_date end_date).net_change =
    netTotal ((dedupKeys ((sortByDate (entries.filter
        (fun x => start_date ≤ x.date && x.date ≤ end_date))).map transKey)).foldl
      (fun st k => processGroup accounts st
        ((sortByDate (entries.filter
          (fun x => start_date ≤ x.date && x.date ≤ end_date))).filter
          (fun e => transKey e == k)))
      ⟨[], [], [], [], [], []⟩) := rfl

theorem net_change_eq_sum (accounts : List Account) (entries : List JournalEntry)
    (start_date end_date : ℤ) :
    (generate_cash_flow_statement accounts entries start_date end_date).net_change =
      ((dedupKeys ((sortByDate (entries.filter
          (fun x => start_date ≤ x.date && x.date ≤ end_date))).map transKey)).map
        (fun k => groupContribution ((sortByDate (entries.filter
          (fun x => start_date ≤ x.date && x.date ≤ end_date))).filter
            (fun x => transKey x == k)))).sum := by
  rw [net_change_as_netTotal]
  have h := foldl_processGroup accounts
    (sortByDate (entries.filter (fun x => start_date ≤ x.date && x.date ≤ end_date)))
    (dedupKeys ((sortByDate (entries.filter
      (fun x => start_date ≤ x.date && x.date ≤ end_date))).map transKey))
    ⟨[], [], [], [], [], []⟩
    ⟨by simp, by simp, by simp, by simp, by simp, by simp⟩
  rw [h]
  simp [netTotal, amountsTotal]

theorem period_groups_sum (entries : List JournalEntry) (s e : ℤ)
    (H : ∀ k ∈ dedupKeys ((sortByDate (entries.filter
        (fun x => s ≤ x.date && x.date ≤ e))).map transKey),
      groupContribution ((sortByDate (entries.filter
        (fun x => s ≤ x.date && x.date ≤ e))).filter (fun x => transKey x == k)) =
      ((((sortByDate (entries.filter (fun x => s ≤ x.date && x.date ≤ e))).filter
          (fun x => transKey x == k)).filter
            (fun x => x.account_code == CASH_ACCOUNT_CODE)).map movement).sum) :
    ((dedupKeys ((sortByDate (entries.filter
        (fun x => s ≤ x.date && x.date ≤ e))).map transKey)).map
      (fun k => groupContribution ((sortByDate (entries.filter
        (fun x => s ≤ x.date && x.date ≤ e))).filter (fun x => transKey x == k)))).sum =
    ((entries.filter (fun x => x.account_code == CASH_ACCOUNT_CODE &&
        (decide (s ≤ x.date) && decide (x.date ≤ e)))).map movement).sum := by
  rw [List.map_congr_left H]
  have hswap : ∀ k : String,
      ((sortByDate (entries.filter (fun x => s ≤ x.date && x.date ≤ e))).filter
        (fun x => transKey x == k)).filter
          (fun x => x.account_code == CASH_ACCOUNT_CODE) =
      ((sortByDate (entries.filter (fun x => s ≤ x.date && x.date ≤ e))).filter
        (fun x => x.account_code == CASH_ACCOUNT_CODE)).filter
          (fun x => transKey x == k) := by
    intro k
    rw [filter_comm_comb, filter_comm_comb]
    exact List.filter_congr (fun x _ => Bool.and_comm _ _)
  simp only [hswap]
  rw [sum_partition_by_keys transKey movement
    (dedupKeys ((sortByDate (entries.filter
      (fun x => s ≤ x.date && x.date ≤ e))).map transKey))
    ((sortByDate (entries.filter (fun x => s ≤ x.date && x.date ≤ e))).filter
      (fun x => x.account_code == CASH_ACCOUNT_CODE))
    (dedupKeys_nodup _) ?hcov]
  case hcov =>
    intro x hx
    exact dedupKeys_complete _ (transKey x)
      (List.mem_map_of_mem transKey (List.mem_filter.mp hx).1)
  have hperm : List.Perm
      (sortByDate (entries.filter (fun x => s ≤ x.date && x.date ≤ e)))
      (entries.filter (fun x => s ≤ x.date && x.date ≤ e)) := by
    unfold sortByDate
    exact List.mergeSort_perm _ _
  rw [((hperm.filter (fun x => x.account_code == CASH_ACCOUNT_CODE)).map
    movement).sum_eq]
  rw [filter_comm_comb]
  have hfc : entries.filter (fun x => (decide (s ≤ x.date) && decide (x.date ≤ e)) &&
      (x.account_code == CASH_ACCOUNT_CODE)) =
      entries.filter (fun x => x.account_code == CASH_ACCOUNT_CODE &&
      (decide (s ≤ x.date) && decide (x.date ≤ e))) :=
    List.filter_congr (fun x _ => Bool.and_comm _ _)
  rw [hfc]

/-- Resolving every adjustment-form line: when all (at most ten) lines carry a
non-empty registered code, the collection loop keeps exactly the given lines. -/
theorem ajResolved_map_fst (accounts : List Account) (lines : List AJFormLine)
    (h10 : lines.length ≤ 10)
    (hres : ∀ l ∈ lines, l.account_code ≠ "" ∧
      ∃ a, lookupAccount accounts l.account_code = some a) :
    (ajResolved accounts lines).map (fun p => p.1) = lines := by
  unfold ajResolved
  rw [List.take_of_length_le h10]
  induction lines with
  | nil => simp
  | cons l rest ih =>
    obtain ⟨hne, a, ha⟩ := hres l (by simp)
    have hbe : (l.account_code == "") = false := by simpa using hne
    simp only [List.filterMap_cons, hbe, Bool.false_eq_true, if_false, ha]
    simp only [List.map_cons, List.cons.injEq, true_and]
    exact ih (by simpa using Nat.le_of_succ_le h10)
      (fun l' hl' => hres l' (List.mem_cons_of_mem l hl'))

/-- C3 (amended): a posting whose outcome is not success leaves the journal
unchanged, for both the general and the adjustment route; a posting whose
totals differ by more than `0.01` is rejected as unbalanced; and a balanced
posting all of whose lines carry positive amounts (general route) and
registered account codes is appended in full. -/
theorem C3_unbalanced_rejected_balanced_appended
    (accounts : List Account) (journal : List JournalEntry) (f : GJForm)
    (date : ℤ) (lines : List AJFormLine) :
    ((akuntan_journal_gj_post accounts journal f).2 ≠ PostOutcome.success →
      (akuntan_journal_gj_post accounts journal f).1 = journal) ∧
    ((akuntan_adjustment_post accounts journal date lines).2 ≠ PostOutcome.success →
      (akuntan_adjustment_post accounts journal date lines).1 = journal) ∧
    (∀ a b, f.debit_account ≠ "" → f.credit_account ≠ "" →
      0 < f.debit_amount → 0 < f.credit_amount →
      lookupAccount accounts f.debit_account = some a →
      lookupAccount accounts f.credit_account = some b →
      ((ratAbs (f.debit_amount - f.credit_amount) ≤ tolerance →
        akuntan_journal_gj_post accounts journal f =
          (journal ++
            [mkJournalRow f.date a.account_code a.account_name f.debit_description
              f.debit_amount 0 "GJ" f.ref_code,
             mkJournalRow f.date b.account_code b.account_name f.credit_description
              0 f.credit_amount "GJ" f.ref_code], PostOutcome.success)) ∧
       (tolerance < ratAbs (f.debit_amount - f.credit_amount) →
        akuntan_journal_gj_post accounts journal f = (journal, PostOutcome.unbalanced)))) ∧
    (lines.length ≤ 10 →
      (∀ l ∈ lines, l.account_code ≠ "" ∧
        ∃ a, lookupAccount accounts l.account_code = some a) →
      ((ratAbs ((lines.map (·.debit)).sum - (lines.map (·.credit)).sum) ≤ tolerance →
          ∃ rows, akuntan_adjustment_post accounts journal date lines =
              (journal ++ rows, PostOutcome.success) ∧
            rows.map (fun r => (r.account_code, r.debit, r.credit, r.journal_type)) =
              lines.map (fun l => (l.account_code, l.debit, l.credit, "AJ"))) ∧
       (tolerance < ratAbs ((lines.map (·.debit)).sum - (lines.map (·.credit)).sum) →
          akuntan_adjustment_post accounts journal date lines =
            (journal, PostOutcome.unbalanced)))) := by
  refine ⟨?_, ?_, ?_, ?_⟩
  · intro h
    by_cases h1 : (f.debit_account == "" || f.credit_account == "") = true
    · simp [akuntan_journal_gj_post, h1]
    · by_cases h2 : f.debit_amount ≤ 0 ∨ f.credit_amount ≤ 0
      · simp [akuntan_journal_gj_post, h1, h2]
      · by_cases h3 : tolerance < ratAbs (f.debit_amount - f.credit_amount)
        · simp [akuntan_journal_gj_post, h1, h2, h3]
        · exact absurd (by simp [akuntan_journal_gj_post, h1, h2, h3]) h
  · intro h
    by_cases h1 : tolerance < ratAbs
        (((ajResolved accounts lines).map (fun p => p.1.debit)).sum -
         ((ajResolved accounts lines).map (fun p => p.1.credit)).sum)
    · simp [akuntan_adjustment_post, h1]
    · exact absurd (by simp [akuntan_adjustment_post, h1]) h
  · intro a b hda hca hdpos hcpos hla hlb
    have h1 : (f.debit_account == "" || f.credit_account == "") = false := by
      simp [hda, hca]
    have h2 : ¬ (f.debit_amount ≤ 0 ∨ f.credit_amount ≤ 0) := by
      push_neg
      exact ⟨hdpos, hcpos⟩
    constructor
    · intro hbal
      have h3 : ¬ tolerance < ratAbs (f.debit_amount - f.credit_amount) := not_lt.mpr hbal
      simp [akuntan_journal_gj_post, h1, h2, h3, hla, hlb]
    · intro hbal
      simp [akuntan_journal_gj_post, h1, h2, hbal]
  · intro h10 hres
    have hmapfst := ajResolved_map_fst accounts lines h10 hres
    have hdeb : ((ajResolved accounts lines).map (fun p => p.1.debit)).sum =
        ((lines.map (·.debit)).sum) := by
      conv_rhs => rw [← hmapfst]
      rw [List.map_map]
      rfl
    have hcred : ((ajResolved accounts lines).map (fun p => p.1.credit)).sum =
        ((lines.map (·.credit)).sum) := by
      conv_rhs => rw [← hmapfst]
      rw [List.map_map]
      rfl
    constructor
    · intro hbal
      have h1 : ¬ tolerance < ratAbs
          (((ajResolved accounts lines).map (fun p => p.1.debit)).sum -
           ((ajResolved accounts lines).map (fun p => p.1.credit)).sum) := by
        rw [hdeb, hcred]
        exact not_lt.mpr hbal
      refine ⟨(ajResolved accounts lines).map (fun p =>
        mkJournalRow date p.1.account_code p.2.account_name p.1.description
          p.1.debit p.1.credit "AJ" ("AJ" ++ toString date)), ?_, ?_⟩
      · simp [akuntan_adjustment_post, h1]
      · conv_rhs => rw [← hmapfst]
        rw [List.map_map, List.map_map]
        exact List.map_congr_left (fun p _ => rfl)
    · intro hbal
      have h1 : tolerance < ratAbs
          (((ajResolved accounts lines).map (fun p => p.1.debit)).sum -
           ((ajResolved accounts lines).map (fun p => p.1.credit)).sum) := by
        rw [hdeb, hcred]
        exact hbal
      simp [akuntan_adjustment_post, h1]

/-- Counterexample to C3 as stated: an adjustment posting whose submitted lines
balance exactly (5 debit against 5 credit) but in which one line's account code
is unregistered appends nothing and fails, instead of appending all lines. -/
theorem C3_counterexample_balanced_set_not_appended :
    (([⟨"1-1000", "x", 5, 0⟩, ⟨"9-9999", "y", 0, 5⟩] : List AJFormLine).map (·.debit)).sum =
      (([⟨"1-1000", "x", 5, 0⟩, ⟨"9-9999", "y", 0, 5⟩] : List AJFormLine).map (·.credit)).sum ∧
    akuntan_adjustment_post demoAccounts [] 5
      [⟨"1-1000", "x", 5, 0⟩, ⟨"9-9999", "y", 0, 5⟩] = ([], PostOutcome.unbalanced) := by
  constructor
  · norm_num
  · simp [akuntan_adjustment_post, ajResolved, lookupAccount, demoAccounts, List.find?,
      List.filterMap, ratAbs, tolerance]
    norm_num

/-- Witness for the amended C3: a concrete balanced two-line general-journal
posting is appended in full with outcome success. -/
theorem C3_unbalanced_rejected_balanced_appended_witness :
    akuntan_journal_gj_post demoAccounts []
      ⟨5, "GJ", "1-1000", "d", 100, "4-1000", "k", 100⟩ =
      ([mkJournalRow 5 "1-1000" "Kas" "d" 100 0 "GJ" "GJ",
        mkJournalRow 5 "4-1000" "Penjualan" "k" 0 100 "GJ" "GJ"], PostOutcome.success) := by
  have h := (C3_unbalanced_rejected_balanced_appended demoAccounts []
    ⟨5, "GJ", "1-1000", "d", 100, "4-1000", "k", 100⟩ 5 []).2.2.1
    ⟨"1-1000", "Kas", "aset", "debit", 0⟩ ⟨"4-1000", "Penjualan", "pendapatan", "credit", 0⟩
    (by decide) (by decide) (by norm_num) (by norm_num)
    (by simp [lookupAccount, demoAccounts, List.find?])
    (by simp [lookupAccount, demoAccounts, List.find?])
  have h2 := h.1 (by norm_num [ratAbs, tolerance])
  simpa using h2

/-- C9 (code behaviour at the failing input): a balanced general-journal posting
whose debit account code is unregistered silently skips the debit line, appends
only the credit line, and still reports success — it does not fail with an
unknown-account error and does not leave the journal unchanged. -/
theorem C9_unknown_account_partial_post :
    akuntan_journal_gj_post demoAccounts []
      ⟨5, "GJ", "9-9999", "d", 100, "1-1000", "k", 100⟩ =
      ([mkJournalRow 5 "1-1000" "Kas" "k" 0 100 "GJ" "GJ"], PostOutcome.success) := by
  simp [akuntan_journal_gj_post, lookupAccount, demoAccounts, List.find?, ratAbs, tolerance]
  norm_num

theorem invKeyLE_trans (a b c : InventoryCardRow) :
    invKeyLE a b → invKeyLE b c → invKeyLE a c := by
  simp only [invKeyLE, Bool.or_eq_true, Bool.and_eq_true, beq_iff_eq, decide_eq_true_eq]
  omega

theorem invKeyLE_total (a b : InventoryCardRow) : invKeyLE a b || invKeyLE b a := by
  simp only [invKeyLE, Bool.or_eq_true, Bool.and_eq_true, beq_iff_eq, decide_eq_true_eq]
  omega

/-- The recalculation loop only rewrites balance fields: every output row keeps
its source row's date and id. -/
theorem applyRunningBalances_mem (q m : ℚ) (l : List InventoryCardRow) :
    ∀ x ∈ applyRunningBalances q m l, ∃ y ∈ l, x.date = y.date ∧ x.id = y.id := by
  induction l generalizing q m with
  | nil => intro x hx; simp [applyRunningBalances] at hx
  | cons r rest ih =>
    intro x hx
    simp only [applyRunningBalances] at hx
    rcases List.mem_cons.mp hx with h | h
    · exact ⟨r, by simp, by simp [h]⟩
    · obtain ⟨y, hy, hdy, hiy⟩ := ih _ _ x h
      exact ⟨y, List.mem_cons_of_mem r hy, hdy, hiy⟩

theorem applyRunningBalances_pairwise (q m : ℚ) (l : List InventoryCardRow)
    (h : l.Pairwise (fun a b => invKeyLE a b)) :
    (applyRunningBalances q m l).Pairwise (fun a b => invKeyLE a b) := by
  induction l generalizing q m with
  | nil => simp [applyRunningBalances]
  | cons r rest ih =>
    rcases List.pairwise_cons.mp h with ⟨hhead, htail⟩
    simp only [applyRunningBalances]
    refine List.pairwise_cons.mpr ⟨?_, ih _ _ htail⟩
    intro x hx
    obtain ⟨y, hy, hdy, hiy⟩ := applyRunningBalances_mem _ _ rest x hx
    have := hhead y hy
    simp only [invKeyLE, hdy, hiy] at *
    exact this

theorem applyRunningBalances_idem (l : List InventoryCardRow) :
    ∀ q m : ℚ, applyRunningBalances q m (applyRunningBalances q m l) =
      applyRunningBalances q m l := by
  induction l with
  | nil => intro q m; rfl
  | cons r rest ih =>
    intro q m
    simp only [applyRunningBalances]
    rw [ih]

/-- C8: running `recalculate_inventory_balances` twice in a row produces the
same table, with identical balance fields on every row, as running it once. -/
theorem C8_recalculate_inventory_idempotent (rows : List InventoryCardRow) :
    recalculate_inventory_balances (recalculate_inventory_balances rows) =
      recalculate_inventory_balances rows := by
  unfold recalculate_inventory_balances
  have hsorted : (rows.mergeSort invKeyLE).Pairwise (fun a b => invKeyLE a b) :=
    List.sorted_mergeSort (fun a b c => invKeyLE_trans a b c)
      (fun a b => invKeyLE_total a b) rows
  have hsorted2 : (applyRunningBalances 0 0 (rows.mergeSort invKeyLE)).Pairwise
      (fun a b => invKeyLE a b) :=
    applyRunningBalances_pairwise 0 0 _ hsorted
  rw [List.mergeSort_of_sorted hsorted2]
  exact applyRunningBalances_idem _ 0 0

/-- Counterexample to C5 as stated: selling 20 kg with only 6 kg on hand fails,
and the journal, inventory card and balances are untouched — but the sale
record was already inserted before the stock check, so the state is not
unchanged and a sales row remains. -/
theorem C5_counterexample_sale_record_written :
    process_sale demoState 2 "Ikan Mujair" 20 2000 40000 "emp" "jual" "JL1" =
      ({ demoState with
          sales := [⟨2, "Ikan Mujair", 20, 2000, 40000, "emp", "completed"⟩] }, false) ∧
    demoState.sales = [] := by
  constructor
  · simp only [process_sale, get_last_inventory_entry, demoState, demoInvRow,
      List.filter, List.foldl]
    norm_num
  · rfl

/-- C5 (amended): a sale whose quantity exceeds the product's current balance
(or with no inventory row at all) aborts with a failure: no journal line and no
inventory-card row are written and the product's balances keep their prior
values, but the sale record inserted before the stock check remains in the
sales table. -/
theorem C5_insufficient_stock_aborts_after_sale_insert
    (st : StoreState) (date : ℤ) (item_name : String)
    (quantity unit_price total_amount : ℚ) (employee description ref_code : String)
    (h : get_last_inventory_entry st.inventory item_name = none ∨
      ∃ r, get_last_inventory_entry st.inventory item_name = some r ∧
        r.balance_quantity < quantity) :
    process_sale st date item_name quantity unit_price total_amount
        employee description ref_code =
      ({ st with
          sales := st.sales ++
            [⟨date, item_name, quantity, unit_price, total_amount, employee, "completed"⟩] },
        false) := by
  rcases h with h | ⟨r, hr, hlt⟩
  · simp [process_sale, h]
  · simp [process_sale, hr, hlt]

/-- Witness for the amended C5 at the demo state (sell 20 kg of a 6 kg stock). -/
theorem C5_insufficient_stock_aborts_after_sale_insert_witness :
    process_sale demoState 2 "Ikan Mujair" 20 2000 40000 "emp" "jual" "JL1" =
      ({ demoState with
          sales := [⟨2, "Ikan Mujair", 20, 2000, 40000, "emp", "completed"⟩] }, false) := by
  have h := C5_insufficient_stock_aborts_after_sale_insert demoState 2 "Ikan Mujair"
    20 2000 40000 "emp" "jual" "JL1"
    (Or.inr ⟨demoInvRow, by simp [get_last_inventory_entry, demoState, demoInvRow,
      List.filter, List.foldl], by norm_num [demoInvRow]⟩)
  simpa [demoState] using h

/-- C7: every inventory-card row appended by the purchase and sale flows
satisfies the moving-average running-balance recurrence against the product's
prior row (prior values read as zero when no row exists), and a sale's cost
basis is the prior row's moving-average unit price. -/
theorem C7_inventory_row_recurrence
    (st : StoreState) (date : ℤ) (item_name : String)
    (quantity unit_price total_amount : ℚ) (employee description ref_code : String) :
    (∀ r, get_last_inventory_entry st.inventory item_name = some r →
      ¬ r.balance_quantity < quantity →
      ∃ row, (process_sale st date item_name quantity unit_price total_amount
          employee description ref_code).1.inventory = st.inventory ++ [row] ∧
        row.balance_quantity = r.balance_quantity + row.purchase_quantity - row.sales_quantity ∧
        row.balance_amount = r.balance_amount + row.purchase_amount - row.sales_amount ∧
        row.balance_unit_price =
          (if 0 < row.balance_quantity then row.balance_amount / row.balance_quantity else 0) ∧
        row.sales_unit_price = r.balance_unit_price ∧
        row.sales_quantity = quantity ∧
        row.sales_amount = quantity * r.balance_unit_price ∧
        row.purchase_quantity = 0 ∧ row.purchase_amount = 0) ∧
    (∀ r, get_last_inventory_entry st.inventory item_name = some r →
      ∃ row, (process_purchase st date "bibit" item_name quantity unit_price total_amount
          employee description ref_code).1.inventory = st.inventory ++ [row] ∧
        row.balance_quantity = r.balance_quantity + row.purchase_quantity - row.sales_quantity ∧
        row.balance_amount = r.balance_amount + row.purchase_amount - row.sales_amount ∧
        row.balance_unit_price =
          (if 0 < row.balance_quantity then row.balance_amount / row.balance_quantity else 0) ∧
        row.purchase_quantity = quantity ∧ row.purchase_amount = total_amount ∧
        row.sales_quantity = 0 ∧ row.sales_amount = 0) ∧
    (get_last_inventory_entry st.inventory item_name = none →
      ∃ row, (process_purchase st date "bibit" item_name quantity unit_price total_amount
          employee description ref_code).1.inventory = st.inventory ++ [row] ∧
        row.balance_quantity = 0 + row.purchase_quantity - row.sales_quantity ∧
        row.balance_amount = 0 + row.purchase_amount - row.sales_amount ∧
        row.balance_unit_price =
          (if 0 < row.balance_quantity then row.balance_amount / row.balance_quantity else 0) ∧
        row.purchase_quantity = quantity ∧ row.purchase_amount = total_amount) := by
  refine ⟨?_, ?_, ?_⟩
  · intro r hr hge
    refine ⟨⟨freshInvId st.inventory, date, ref_code, description, item_name,
      0, 0, 0, quantity, r.balance_unit_price, quantity * r.balance_unit_price,
      r.balance_quantity - quantity,
      (if 0 < r.balance_quantity - quantity then
        (r.balance_amount - quantity * r.balance_unit_price) /
          (r.balance_quantity - quantity) else 0),
      r.balance_amount - quantity * r.balance_unit_price, employee⟩,
      ?_, by simp, by simp, by simp, by simp, by simp, by simp, by simp, by simp⟩
    simp [process_sale, hr, hge]
  · intro r hr
    refine ⟨⟨freshInvId st.inventory, date, ref_code, description, item_name,
      quantity, unit_price, total_amount, 0, 0, 0,
      r.balance_quantity + quantity,
      (if 0 < r.balance_quantity + quantity then
        (r.balance_amount + total_amount) / (r.balance_quantity + quantity) else 0),
      r.balance_amount + total_amount, employee⟩,
      ?_, by simp, by simp, by simp, by simp, by simp, by simp, by simp⟩
    simp [process_purchase, purchaseAccountMapping, hr]
  · intro hr
    refine ⟨⟨freshInvId st.inventory, date, ref_code, description, item_name,
      quantity, unit_price, total_amount, 0, 0, 0,
      0 + quantity,
      (if 0 < (0 : ℚ) + quantity then (0 + total_amount) / (0 + quantity) else 0),
      0 + total_amount, employee⟩,
      ?_, by simp, by simp, by simp, by simp, by simp⟩
    simp [process_purchase, purchaseAccountMapping, hr]

/-- Witness for C7: selling 4 kg of the 6 kg demo stock at cost basis 1000. -/
theorem C7_inventory_row_recurrence_witness :
    ∃ row, (process_sale demoState 2 "Ikan Mujair" 4 2000 8000
        "emp" "jual" "JL1").1.inventory = demoState.inventory ++ [row] ∧
      row.balance_quantity = demoInvRow.balance_quantity + row.purchase_quantity -
        row.sales_quantity ∧
      row.balance_amount = demoInvRow.balance_amount + row.purchase_amount -
        row.sales_amount ∧
      row.balance_unit_price =
        (if 0 < row.balance_quantity then row.balance_amount / row.balance_quantity else 0) ∧
      row.sales_unit_price = demoInvRow.balance_unit_price ∧
      row.sales_quantity = 4 ∧
      row.sales_amount = 4 * demoInvRow.balance_unit_price ∧
      row.purchase_quantity = 0 ∧ row.purchase_amount = 0 :=
  (C7_inventory_row_recurrence demoState 2 "Ikan Mujair" 4 2000 8000
    "emp" "jual" "JL1").1 demoInvRow
    (by simp [get_last_inventory_entry, demoState, demoInvRow, List.filter, List.foldl])
    (by norm_num [demoInvRow])

/-- C10: `get_ledger_balance` for an unregistered account code returns `0`. -/
theorem C10_unknown_account_ledger_balance_zero
    (accounts : List Account) (entries : List JournalEntry)
    (code : String) (end_date : Option ℤ) (journal_types : Option (List String))
    (h : ∀ a ∈ accounts, a.account_code ≠ code) :
    get_ledger_balance accounts entries code end_date journal_types = 0 := by
  have hfind : lookupAccount accounts code = none := by
    apply List.find?_eq_none.mpr
    intro a ha
    simpa using h a ha
  simp [get_ledger_balance, hfind]

/-- Witness for C10 at a concrete unregistered code. -/
theorem C10_unknown_account_ledger_balance_zero_witness :
    get_ledger_balance demoAccounts [] "9-9999" none none = 0 := by
  exact C10_unknown_account_ledger_balance_zero demoAccounts [] "9-9999" none none
    (by decide)

/-- C1: the cash-flow report satisfies `ending_cash = beginning_cash +
net_change` unconditionally, with `beginning_cash` the cash ledger balance as
of the day before `start_date` and `net_change` the sum of the three section
nets; and when the cash account `1-1000` is registered debit-normal, the
period is non-degenerate, and every transaction group's classified
contribution equals the plain sum of the group's cash-line movements (every
material cash movement matched to a counterpart, classified by its prefix, and
signed consistently with the movement), `ending_cash` also equals the cash
ledger balance as of `end_date`. -/
theorem C1_cash_flow_reconciliation (accounts : List Account)
    (entries : List JournalEntry) (start_date end_date : ℤ) :
    ((generate_cash_flow_statement accounts entries start_date end_date).ending_cash =
      (generate_cash_flow_statement accounts entries start_date end_date).beginning_cash +
      (generate_cash_flow_statement accounts entries start_date end_date).net_change ∧
     (generate_cash_flow_statement accounts entries start_date end_date).beginning_cash =
      get_ledger_balance accounts entries CASH_ACCOUNT_CODE (some (start_date - 1)) none ∧
     (generate_cash_flow_statement accounts entries start_date end_date).net_change =
      (generate_cash_flow_statement accounts entries start_date end_date).net_operating +
      (generate_cash_flow_statement accounts entries start_date end_date).net_investing +
      (generate_cash_flow_statement accounts entries start_date end_date).net_financing) ∧
    (start_date - 1 ≤ end_date →
     ∀ acc : Account, lookupAccount accounts CASH_ACCOUNT_CODE = some acc →
      acc.normal_balance = "debit" →
      (∀ k ∈ dedupKeys ((sortByDate (entries.filter
          (fun x => start_date ≤ x.date && x.date ≤ end_date))).map transKey),
        groupContribution ((sortByDate (entries.filter
          (fun x => start_date ≤ x.date && x.date ≤ end_date))).filter
            (fun x => transKey x == k)) =
        ((((sortByDate (entries.filter
            (fun x => start_date ≤ x.date && x.date ≤ end_date))).filter
          (fun x => transKey x == k)).filter
            (fun x => x.account_code == CASH_ACCOUNT_CODE)).map movement).sum) →
      (generate_cash_flow_statement accounts entries start_date end_date).ending_cash =
        get_ledger_balance accounts entries CASH_ACCOUNT_CODE (some end_date) none) := by
  refine ⟨⟨rfl, rfl, rfl⟩, ?_⟩
  intro hse acc hacc hnb H
  have hend : (generate_cash_flow_statement accounts entries start_date end_date).ending_cash =
      get_ledger_balance accounts entries CASH_ACCOUNT_CODE (some (start_date - 1)) none +
      (generate_cash_flow_statement accounts entries start_date end_date).net_change := rfl
  rw [hend, net_change_eq_sum, period_groups_sum entries start_date end_date H,
    ledger_cash_split accounts entries start_date end_date hse acc hacc hnb]

/-- C1 counterexample: a cash receipt recorded against two counterpart lines
has no single offsetting counterpart, so the classifier drops the whole 100
movement; the report's ending cash stays 0 while the cash ledger balance at
the end date is 100, refuting the reconciliation half of the claim. -/
theorem C1_counterexample_unmatched_movement :
    get_ledger_balance demoAccounts c1entries CASH_ACCOUNT_CODE (some 10) none = 100 ∧
    (generate_cash_flow_statement demoAccounts c1entries 1 10).ending_cash = 0 ∧
    (generate_cash_flow_statement demoAccounts c1entries 1 10).ending_cash ≠
      get_ledger_balance demoAccounts c1entries CASH_ACCOUNT_CODE (some 10) none := by
  have hledger : get_ledger_balance demoAccounts c1entries CASH_ACCOUNT_CODE
      (some 10) none = 100 := by
    simp [get_ledger_balance, lookupAccount, dateOk, typeOk, c1entries,
      demoAccounts, CASH_ACCOUNT_CODE, List.filter, List.find?]
  have h1 : (generate_cash_flow_statement demoAccounts c1entries 1 10).ending_cash =
      (generate_cash_flow_statement demoAccounts c1entries 1 10).beginning_cash +
      (generate_cash_flow_statement demoAccounts c1entries 1 10).net_change := rfl
  have h2 : (generate_cash_flow_statement demoAccounts c1entries 1 10).beginning_cash =
      0 := by
    show get_ledger_balance demoAccounts c1entries CASH_ACCOUNT_CODE
      (some ((1:ℤ) - 1)) none = 0
    simp [get_ledger_balance, lookupAccount, dateOk, typeOk, c1entries,
      demoAccounts, CASH_ACCOUNT_CODE, List.filter, List.find?]
  have h3 : (generate_cash_flow_statement demoAccounts c1entries 1 10).net_change =
      0 := by
    rw [net_change_eq_sum]
    have hfe : c1entries.filter
        (fun x => (1:ℤ) ≤ x.date && x.date ≤ (10:ℤ)) = c1entries := rfl
    rw [hfe]
    have hsort : sortByDate c1entries = c1entries :=
      List.mergeSort_of_sorted (by simp [c1entries])
    rw [hsort]
    have hdk : dedupKeys (c1entries.map transKey) = ["CF1"] := rfl
    rw [hdk]
    simp only [List.map_cons, List.map_nil, List.sum_cons, List.sum_nil]
    have hgrp : c1entries.filter (fun x => transKey x == "CF1") = c1entries := rfl
    rw [hgrp]
    simp [groupContribution, cashContribution, findCounterpart, movement, ratAbs,
      c1entries, CASH_ACCOUNT_CODE, List.filter, List.find?]
    norm_num [tolerance]
  refine ⟨hledger, ?_, ?_⟩
  · rw [h1, h2, h3]
    norm_num
  · rw [h1, h2, h3, hledger]
    norm_num

theorem C1_cash_flow_reconciliation_witness :
    (generate_cash_flow_statement demoAccounts demoSaleEntries 1 10).ending_cash =
      get_ledger_balance demoAccounts demoSaleEntries CASH_ACCOUNT_CODE
        (some 10) none := by
  refine (C1_cash_flow_reconciliation demoAccounts demoSaleEntries 1 10).2
    (by norm_num) ⟨"1-1000", "Kas", "aset", "debit", 0⟩ rfl rfl ?_
  have hfe : demoSaleEntries.filter
      (fun x => (1:ℤ) ≤ x.date && x.date ≤ (10:ℤ)) = demoSaleEntries := rfl
  rw [hfe]
  have hsort : sortByDate demoSaleEntries = demoSaleEntries :=
    List.mergeSort_of_sorted (by simp [demoSaleEntries])
  rw [hsort]
  have hdk : dedupKeys (demoSaleEntries.map transKey) = ["GB001"] := rfl
  rw [hdk]
  intro k hk
  simp only [List.mem_singleton] at hk
  subst hk
  have hgrp : demoSaleEntries.filter (fun x => transKey x == "GB001") =
      demoSaleEntries := rfl
  rw [hgrp]
  simp [groupContribution, cashContribution, findCounterpart, classifiedDelta,
    movement, ratAbs, strStartsWith, demoSaleEntries, CASH_ACCOUNT_CODE,
    List.filter, List.find?, List.isPrefixOf]
  norm_num [tolerance]

end Tilapia
